import Mathlib

/-!
Shallow embedding of the `game-of-life` repository's cellular-automaton core
(class `GameOfLifeModel` and helper `CellNeighbours`, present identically in
the compiled source and in `main.ts` except for the `iterate` method, which
`main.ts` implements with a copy-based loop instead of the two-phase
`computeChanges`/`applyChanges` pair).

Modelling conventions:
* JavaScript `throw` is modelled with `Except JsError`; the three error sites
  of the source are the constructor's size check, `checkIndexIsValid`, and the
  `TypeError` JavaScript itself raises when a property of `undefined` is read
  (`this.cells[row][column]` with a negative `row`).
* `number` indices are modelled as `Int` wherever the source can receive a
  negative value (cell accessors), and as `Nat` where they are loop counters.
* Reading a JavaScript array outside its bounds yields `undefined`; every use
  of a cell value in this program is a truthiness test, under which
  `undefined` and `false` are indistinguishable, so such reads are modelled
  as `false`.
-/

namespace GameOfLife

/-- Errors thrown by the source: `Invalid game size` from the constructor,
`... out of range` from `checkIndexIsValid`, the `TypeError` JavaScript raises
when indexing into `undefined` (negative row), and the `RangeError` raised by
`new Array(n)` for a negative length. -/
inductive JsError where
  | invalidSize
  | outOfRange
  | typeError
  | rangeError
deriving DecidableEq, Repr

/-- The grid model: field `cells` is the 2D boolean array, field `iteration`
is the generation counter (class `GameOfLifeModel`). -/
structure GameOfLifeModel where
  cells : List (List Bool)
  iteration : Nat
deriving DecidableEq, Repr

namespace GameOfLifeModel

/-- Getter `rows`: `this.cells.length`. -/
def rows (m : GameOfLifeModel) : Nat := m.cells.length

/-- Getter `columns`: `this.rows > 0 ? this.cells.at(0).length : 0`.
`List.getD 0` returns `[]` on the empty list, whose length is `0`, so the
two branches collapse into one expression. -/
def columns (m : GameOfLifeModel) : Nat := (m.cells.getD 0 []).length

/-- Raw JavaScript read `this.cells[i][j]` for non-negative in-bounds-or-not
indices; a read past the end of an array yields `undefined`, which is falsy
everywhere the program consumes it, hence the `false` defaults. -/
def cellAt (m : GameOfLifeModel) (i j : Nat) : Bool :=
  (m.cells.getD i []).getD j false

/-- The grid invariant of a well-formed model: every row has length
`columns` (the source maintains this for every model built through the
constructor and its mutators). -/
def Rect (m : GameOfLifeModel) : Prop :=
  ∀ r ∈ m.cells, r.length = columns m

instance (m : GameOfLifeModel) : Decidable (Rect m) :=
  List.decidableBAll _ m.cells

/-- Method `checkIndexIsValid`: throws when `row >= this.rows`, then when
`column >= this.columns`. Note the source has no check for negative
indices. -/
def checkIndexIsValid (m : GameOfLifeModel) (row column : Int) : Except JsError Unit :=
  if (rows m : Int) ≤ row then .error .outOfRange
  else if (columns m : Int) ≤ column then .error .outOfRange
  else .ok ()

/-- Method `lifeAt`: validate, then return `this.cells[row][column]`.
For a negative `row`, `this.cells[row]` is `undefined` and indexing it throws
a `TypeError`; for a non-negative in-range `row` and a negative `column`, the
read yields `undefined` (falsy, modelled `false`) without throwing. -/
def lifeAt (m : GameOfLifeModel) (row column : Int) : Except JsError Bool :=
  match checkIndexIsValid m row column with
  | .error e => .error e
  | .ok _ =>
    if row < 0 then .error .typeError
    else if column < 0 then .ok false
    else .ok (cellAt m row.toNat column.toNat)

/-- Helper for the cell setters: `this.cells[i][j] = b` at non-negative
indices (`List.set` is the identity out of bounds, as is the JavaScript
assignment for the in-`rows`/`columns` indices the setters allow). -/
def setCell (m : GameOfLifeModel) (i j : Nat) (b : Bool) : GameOfLifeModel :=
  { m with cells := m.cells.set i ((m.cells.getD i []).set j b) }

/-- Method `reviveCell`: validate, then `this.cells[row][column] = true`.
For a negative `row` the assignment target is a property of `undefined`, a
`TypeError`; for a negative `column` (row in range) JavaScript creates a
stray non-index property `"-1"` on the row array — no grid cell (index `0 ≤
j < columns`) changes and nothing is thrown, so the model returns the model
unchanged. -/
def reviveCell (m : GameOfLifeModel) (row column : Int) : Except JsError GameOfLifeModel :=
  match checkIndexIsValid m row column with
  | .error e => .error e
  | .ok _ =>
    if row < 0 then .error .typeError
    else if column < 0 then .ok m
    else .ok (setCell m row.toNat column.toNat true)

/-- Method `killCell`: validate, then `this.cells[row][column] = false`;
same negative-index behaviour as `reviveCell`. -/
def killCell (m : GameOfLifeModel) (row column : Int) : Except JsError GameOfLifeModel :=
  match checkIndexIsValid m row column with
  | .error e => .error e
  | .ok _ =>
    if row < 0 then .error .typeError
    else if column < 0 then .ok m
    else .ok (setCell m row.toNat column.toNat false)

/-- Constructor `GameOfLifeModel(rows, columns)`: throws `Invalid game size`
when either argument is `0`; otherwise pushes rows of `new
Array(columns).fill(false)` until `this.rows` reaches `rows` (none for a
negative `rows`). `new Array(columns)` throws a `RangeError` for a negative
`columns`, which can only be reached when at least one row is pushed. -/
def construct (rowCount columnCount : Int) : Except JsError GameOfLifeModel :=
  if rowCount = 0 ∨ columnCount = 0 then .error .invalidSize
  else if 0 < rowCount ∧ columnCount < 0 then .error .rangeError
  else .ok { cells := List.replicate rowCount.toNat (List.replicate columnCount.toNat false)
           , iteration := 0 }

end GameOfLifeModel

/-- The eight neighbour liveness flags (class `CellNeighbours`). -/
structure CellNeighbours where
  north : Bool
  northEast : Bool
  east : Bool
  southEast : Bool
  south : Bool
  southWest : Bool
  west : Bool
  northWest : Bool
deriving DecidableEq, Repr

/-- Getter `living`: counts the true flags, iterating the eight directions
in the order of `CellNeighbours.directions`. -/
def CellNeighbours.living (n : CellNeighbours) : Nat :=
  n.north.toNat + n.northEast.toNat + n.east.toNat + n.southEast.toNat +
  n.south.toNat + n.southWest.toNat + n.west.toNat + n.northWest.toNat

namespace GameOfLifeModel

/-- The `try { this.lifeAt(...) } catch { false }` pattern of
`neighbours`: any thrown error makes the neighbour count as dead. -/
def lifeAtOrDead (m : GameOfLifeModel) (row column : Int) : Bool :=
  match lifeAt m row column with
  | .ok b => b
  | .error _ => false

/-- Method `neighbours`: probes the eight offsets of
`CellNeighbours.directionOffset` around `(row, column)`, each through the
try/catch wrapper. -/
def neighbours (m : GameOfLifeModel) (row column : Int) : CellNeighbours where
  north := lifeAtOrDead m (row - 1) column
  northEast := lifeAtOrDead m (row - 1) (column + 1)
  east := lifeAtOrDead m row (column + 1)
  southEast := lifeAtOrDead m (row + 1) (column + 1)
  south := lifeAtOrDead m (row + 1) column
  southWest := lifeAtOrDead m (row + 1) (column - 1)
  west := lifeAtOrDead m row (column - 1)
  northWest := lifeAtOrDead m (row - 1) (column - 1)

end GameOfLifeModel

/-- A pending change record (interface `CellChanges`); the coordinates are
always the non-negative loop counters of `computeChanges`, hence `Nat`. -/
structure CellChanges where
  row : Nat
  column : Nat
  state : Bool
deriving DecidableEq, Repr

namespace GameOfLifeModel

/-- The body of the `computeChanges` double loop at one cell: push
`(i, j, true)` when the cell has exactly 3 living neighbours, `(i, j,
false)` when it has neither 2 nor 3, and nothing when it has exactly 2. -/
def changeAt (m : GameOfLifeModel) (i j : Nat) : Option CellChanges :=
  if (neighbours m i j).living = 3 then some ⟨i, j, true⟩
  else if (neighbours m i j).living ≠ 2 then some ⟨i, j, false⟩
  else none

/-- Method `computeChanges`: nested loops `i < this.cells.length`,
`j < this.cells.at(i).length`, pushing the decided changes in row-major
order. -/
def computeChanges (m : GameOfLifeModel) : List CellChanges :=
  (List.range (rows m)).flatMap (fun i =>
    (List.range ((m.cells.getD i []).length)).filterMap (fun j => changeAt m i j))

/-- Method `applyChanges`: `for (change of changes)` calling `reviveCell` or
`killCell`; a thrown error aborts the loop and propagates. -/
def applyChanges (m : GameOfLifeModel) : List CellChanges → Except JsError GameOfLifeModel
  | [] => .ok m
  | c :: rest =>
    match (if c.state then reviveCell m c.row c.column else killCell m c.row c.column) with
    | .error e => .error e
    | .ok m2 => applyChanges m2 rest

/-- Method `iterate` (two-phase version):
`this.applyChanges(this.computeChanges()); this.iteration++`. -/
def iterate (m : GameOfLifeModel) : Except JsError GameOfLifeModel :=
  match applyChanges m (computeChanges m) with
  | .error e => .error e
  | .ok m2 => .ok { m2 with iteration := m2.iteration + 1 }

/-- Method `addRow`: push one all-dead row of the current width. -/
def addRow (m : GameOfLifeModel) : GameOfLifeModel :=
  { m with cells := m.cells ++ [List.replicate (columns m) false] }

/-- Method `removeRow`: no-op when `this.rows === 1`, else pop the last
row. -/
def removeRow (m : GameOfLifeModel) : GameOfLifeModel :=
  if rows m = 1 then m else { m with cells := m.cells.dropLast }

/-- Method `addColumn`: push `false` onto every row. -/
def addColumn (m : GameOfLifeModel) : GameOfLifeModel :=
  { m with cells := m.cells.map (fun r => r ++ [false]) }

/-- Method `removeColumn`: no-op when `this.columns === 1`, else pop the
last entry of every row. -/
def removeColumn (m : GameOfLifeModel) : GameOfLifeModel :=
  if columns m = 1 then m else { m with cells := m.cells.map (fun r => r.dropLast) }

/-- Method `randomize`: sets every cell `(i, j)` with `i < rows`,
`j < columns` from a coin flip; `Math.random() < 0.5` is modelled by an
arbitrary boolean oracle indexed by the cell. The generation counter is not
touched. -/
def randomize (m : GameOfLifeModel) (coin : Nat → Nat → Bool) : GameOfLifeModel :=
  { m with cells := (List.range (rows m)).map (fun i =>
      (List.range (columns m)).map (fun j => coin i j)) }

/-- Method `copy`: `new GameOfLifeModel(this.rows, this.columns)` (which can
throw `Invalid game size` when a dimension is `0`), then the loop
`copy.cells[i] = this.cells[i].map(e => e)` for `i < copy.rows`; the loop
writes every index of `copy.cells` exactly once, in order, so its net effect
is the map below. -/
def copy (m : GameOfLifeModel) : Except JsError GameOfLifeModel :=
  match construct (rows m) (columns m) with
  | .error e => .error e
  | .ok c => .ok { c with cells :=
      (List.range (rows c)).map (fun i => (m.cells.getD i []).map (fun e => e)) }

/-- Pure image of `applyChanges` for in-range change lists: the same fold
with the validation stripped (used to state what `applyChanges` computes
when no check fires). -/
def applyChangesP (m : GameOfLifeModel) : List CellChanges → GameOfLifeModel
  | [] => m
  | c :: rest => applyChangesP (setCell m c.row c.column c.state) rest

/-- Inner loop of the `main.ts` variant of `iterate`, at row `i`: for each
`j` of the supplied column list, decide from `src.neighbours(i, j)` and
mutate the copy `acc`; a thrown error propagates. -/
def mainLoopInner (src : GameOfLifeModel) (i : Nat) (acc : GameOfLifeModel) :
    List Nat → Except JsError GameOfLifeModel
  | [] => .ok acc
  | j :: js =>
    match (if (neighbours src i j).living = 3 then reviveCell acc i j
           else if (neighbours src i j).living ≠ 2 then killCell acc i j
           else .ok acc) with
    | .error e => .error e
    | .ok acc2 => mainLoopInner src i acc2 js

/-- Outer loop of the `main.ts` variant of `iterate`: for each row index of
the supplied list, run the inner loop over `j < copy.columns` (the copy's
current width, re-read at each entry as in the source). -/
def mainLoopOuter (src : GameOfLifeModel) (acc : GameOfLifeModel) :
    List Nat → Except JsError GameOfLifeModel
  | [] => .ok acc
  | i :: is =>
    match mainLoopInner src i acc (List.range (columns acc)) with
    | .error e => .error e
    | .ok acc2 => mainLoopOuter src acc2 is

/-- Method `iterate` as written in `main.ts`: deep-copy the model, then for
every `i < copy.rows`, `j < copy.columns` decide the next state from
`this.neighbours(i, j)` (the original, unmodified grid) and write it into
the copy; finally adopt the copy's cells and increment the counter. The
outer loop bound `copy.rows` never changes during the loop and is taken
up front. -/
def iterateMainTs (m : GameOfLifeModel) : Except JsError GameOfLifeModel :=
  match copy m with
  | .error e => .error e
  | .ok c =>
    match mainLoopOuter m c (List.range (rows c)) with
    | .error e => .error e
    | .ok c2 => .ok { cells := c2.cells, iteration := m.iteration + 1 }

/-- Modelled from the spec: `1` when the offset cell lies inside the grid
(`0 ≤ r < rows`, `0 ≤ c < columns`) and is alive, `0` otherwise — the
"treat a neighbor outside the grid's valid range as dead" policy. -/
def inGridAlive (m : GameOfLifeModel) (r c : Int) : Nat :=
  if 0 ≤ r ∧ r < (rows m : Int) ∧ 0 ≤ c ∧ c < (columns m : Int) ∧
     cellAt m r.toNat c.toNat = true then 1 else 0

/-- Modelled from the spec: `countLiveNeighbors` as §4.1 describes it — the
sum over the eight Moore offsets `(-1,0), (-1,1), (0,1), (1,1), (1,0),
(1,-1), (0,-1), (-1,-1)`, counting an out-of-range neighbour as dead. -/
def specLiveNeighbourCount (m : GameOfLifeModel) (row column : Int) : Nat :=
  inGridAlive m (row - 1) column + inGridAlive m (row - 1) (column + 1) +
  inGridAlive m row (column + 1) + inGridAlive m (row + 1) (column + 1) +
  inGridAlive m (row + 1) column + inGridAlive m (row + 1) (column - 1) +
  inGridAlive m row (column - 1) + inGridAlive m (row - 1) (column - 1)

end GameOfLifeModel

/-!
Heap-level embedding for the storage-sharing claim. A JavaScript
`GameOfLifeModel` holds an array of references to row arrays; whether two
models share cell storage is a question about those references, which the
pure value model above cannot express. Here the row arrays live in an
explicit store (`RowHeap`), a model holds the indices of its rows
(`HModel.rowIds`), and every mutating method of the source is replayed
against the store. Allocation of a fresh array appends to the store. -/

/-- The store of all row arrays; an array id is its index in `store`. -/
structure RowHeap where
  store : List (List Bool)
deriving DecidableEq, Repr

/-- A model as the heap sees it: `rowIds` are the ids of its row arrays, in
grid order (field `cells` of the source), plus the generation counter. -/
structure HModel where
  rowIds : List Nat
  iteration : Nat
deriving DecidableEq, Repr

namespace HModel

/-- Dereference a model's rows: the grid contents this model observes. -/
def hview (h : RowHeap) (a : HModel) : List (List Bool) :=
  a.rowIds.map (fun id => h.store.getD id [])

/-- The pure-model value a heap model denotes (used to reuse the value-level
methods for everything that only reads the grid). -/
def toModel (h : RowHeap) (a : HModel) : GameOfLifeModel :=
  { cells := hview h a, iteration := a.iteration }

/-- Getter `rows` at heap level. -/
def hrows (a : HModel) : Nat := a.rowIds.length

/-- Getter `columns` at heap level: length of the first row array, `0` when
there are no rows. -/
def hcolumns (h : RowHeap) (a : HModel) : Nat :=
  match a.rowIds with
  | [] => 0
  | id :: _ => (h.store.getD id []).length

/-- Overwrite one row array in the store. -/
def hsetRow (h : RowHeap) (id : Nat) (r : List Bool) : RowHeap :=
  ⟨h.store.set id r⟩

/-- `this.cells[i][j] = b` at heap level: writes through the id of row `i`. -/
def setCellH (h : RowHeap) (a : HModel) (i j : Nat) (b : Bool) : RowHeap :=
  hsetRow h (a.rowIds.getD i 0) ((h.store.getD (a.rowIds.getD i 0) []).set j b)

/-- Method `reviveCell` at heap level (same validation and negative-index
behaviour as the value model; only the store changes). -/
def reviveCellH (h : RowHeap) (a : HModel) (row column : Int) : Except GameOfLife.JsError RowHeap :=
  match GameOfLifeModel.checkIndexIsValid (toModel h a) row column with
  | .error e => .error e
  | .ok _ =>
    if row < 0 then .error .typeError
    else if column < 0 then .ok h
    else .ok (setCellH h a row.toNat column.toNat true)

/-- Method `killCell` at heap level. -/
def killCellH (h : RowHeap) (a : HModel) (row column : Int) : Except GameOfLife.JsError RowHeap :=
  match GameOfLifeModel.checkIndexIsValid (toModel h a) row column with
  | .error e => .error e
  | .ok _ =>
    if row < 0 then .error .typeError
    else if column < 0 then .ok h
    else .ok (setCellH h a row.toNat column.toNat false)

/-- Method `applyChanges` at heap level: the change list only drives writes,
the model's row ids never change. -/
def applyChangesH (h : RowHeap) (a : HModel) : List GameOfLife.CellChanges → Except GameOfLife.JsError RowHeap
  | [] => .ok h
  | c :: rest =>
    match (if c.state then reviveCellH h a c.row c.column else killCellH h a c.row c.column) with
    | .error e => .error e
    | .ok h2 => applyChangesH h2 a rest

/-- Method `iterate` at heap level: compute the changes from the current
view (phase 1 reads only), then apply them through the heap setters. -/
def iterateH (h : RowHeap) (a : HModel) : Except GameOfLife.JsError (RowHeap × HModel) :=
  match applyChangesH h a (GameOfLifeModel.computeChanges (toModel h a)) with
  | .error e => .error e
  | .ok h2 => .ok (h2, ⟨a.rowIds, a.iteration + 1⟩)

/-- Method `addRow` at heap level: allocate one fresh all-dead row array and
append its id. -/
def addRowH (h : RowHeap) (a : HModel) : RowHeap × HModel :=
  (⟨h.store ++ [List.replicate (hcolumns h a) false]⟩,
   ⟨a.rowIds ++ [h.store.length], a.iteration⟩)

/-- Method `removeRow` at heap level: drop the last row id (the array stays
in the store, unreachable from this model). -/
def removeRowH (h : RowHeap) (a : HModel) : RowHeap × HModel :=
  if hrows a = 1 then (h, a) else (h, ⟨a.rowIds.dropLast, a.iteration⟩)

/-- Method `addColumn` at heap level: push `false` onto each of the model's
row arrays, in order. -/
def addColumnH (h : RowHeap) (a : HModel) : RowHeap × HModel :=
  (a.rowIds.foldl (fun hh id => hsetRow hh id ((hh.store.getD id []) ++ [false])) h, a)

/-- Method `removeColumn` at heap level. -/
def removeColumnH (h : RowHeap) (a : HModel) : RowHeap × HModel :=
  if hcolumns h a = 1 then (h, a)
  else (a.rowIds.foldl (fun hh id => hsetRow hh id ((hh.store.getD id []).dropLast)) h, a)

/-- Method `copy` at heap level: the constructor allocates `rows` fresh
all-dead arrays (ids `h.store.length + i`), then the loop replaces each of
them with another fresh array holding the contents of source row `i` (ids
`h.store.length + rows + i`); the new model's counter starts at `0`. The
constructor's size check can fire; its `RangeError` branch cannot, the
dimensions being `Nat`. -/
def copyH (h : RowHeap) (a : HModel) : Except GameOfLife.JsError (RowHeap × HModel) :=
  if hrows a = 0 ∨ hcolumns h a = 0 then .error .invalidSize
  else
    let h1 : RowHeap := ⟨h.store ++ List.replicate (hrows a) (List.replicate (hcolumns h a) false)⟩
    .ok (⟨h1.store ++ (List.range (hrows a)).map
            (fun i => (h.store.getD (a.rowIds.getD i 0) []).map (fun e => e))⟩,
         ⟨(List.range (hrows a)).map (fun i => h1.store.length + i), 0⟩)

/-- One mutating operation of the model interface, heap level. -/
inductive MOp where
  | revive (row column : Int)
  | kill (row column : Int)
  | addRowOp
  | removeRowOp
  | addColumnOp
  | removeColumnOp
  | iterateOp
deriving DecidableEq, Repr

/-- Dispatch one mutating operation against model `a` on heap `h`. -/
def applyOpH (h : RowHeap) (a : HModel) : MOp → Except GameOfLife.JsError (RowHeap × HModel)
  | .revive r c => (reviveCellH h a r c).map (fun h2 => (h2, a))
  | .kill r c => (killCellH h a r c).map (fun h2 => (h2, a))
  | .addRowOp => .ok (addRowH h a)
  | .removeRowOp => .ok (removeRowH h a)
  | .addColumnOp => .ok (addColumnH h a)
  | .removeColumnOp => .ok (removeColumnH h a)
  | .iterateOp => iterateH h a

/-- Well-formedness of a heap model: every row id points into the store. -/
def WfH (h : RowHeap) (a : HModel) : Prop :=
  ∀ id ∈ a.rowIds, id < h.store.length

instance (h : RowHeap) (a : HModel) : Decidable (WfH h a) :=
  List.decidableBAll _ a.rowIds

/-- Two heap models share no row array. -/
def IdsDisjoint (a b : HModel) : Prop :=
  ∀ id ∈ a.rowIds, id ∉ b.rowIds

instance (a b : HModel) : Decidable (IdsDisjoint a b) :=
  List.decidableBAll _ a.rowIds

end HModel

/-- Concrete 1×1 all-dead grid, used as a counterexample input. -/
def grid11 : GameOfLifeModel := { cells := [[false]], iteration := 0 }

/-- Concrete 2×2 all-dead grid, used as a counterexample input. -/
def grid22 : GameOfLifeModel := { cells := [[false, false], [false, false]], iteration := 0 }

/-- Concrete 3×3 grid holding a horizontal blinker, used as a witness
input. -/
def blinker : GameOfLifeModel :=
  { cells := [[false, false, false], [true, true, true], [false, false, false]], iteration := 0 }

/-- Concrete 1×1 grid with a non-zero generation counter, used as a witness
input. -/
def grid17 : GameOfLifeModel := { cells := [[true]], iteration := 7 }

namespace GameOfLifeModel

theorem rows_setCell (m : GameOfLifeModel) (i j : Nat) (b : Bool) :
    rows (setCell m i j b) = rows m := by
  simp [rows, setCell]

theorem iteration_setCell (m : GameOfLifeModel) (i j : Nat) (b : Bool) :
    (setCell m i j b).iteration = m.iteration := rfl

theorem setCell_out_of_rows (m : GameOfLifeModel) (i j : Nat) (b : Bool)
    (h : rows m ≤ i) : setCell m i j b = m := by
  unfold setCell
  rw [List.set_eq_of_length_le h]

theorem rowLen_setCell (m : GameOfLifeModel) (i j i' : Nat) (b : Bool) :
    ((setCell m i j b).cells.getD i' []).length = (m.cells.getD i' []).length := by
  rcases Nat.lt_or_ge i (rows m) with h | h
  · have h' : i < m.cells.length := h
    simp only [setCell, List.getD_eq_getElem?_getD, List.getElem?_set]
    rcases eq_or_ne i i' with rfl | hne
    · simp [h', List.length_set]
    · simp [hne]
  · rw [setCell_out_of_rows m i j b h]

theorem columns_setCell (m : GameOfLifeModel) (i j : Nat) (b : Bool) :
    columns (setCell m i j b) = columns m :=
  rowLen_setCell m i j 0 b

theorem getD_mem_of_lt {α : Type} (l : List α) (i : Nat) (d : α) (h : i < l.length) :
    l.getD i d ∈ l := by
  rw [List.getD_eq_getElem?_getD, List.getElem?_eq_getElem h]
  exact List.getElem_mem h

theorem rect_iff_rowLen (m : GameOfLifeModel) :
    Rect m ↔ ∀ i < rows m, (m.cells.getD i []).length = columns m := by
  constructor
  · intro hm i hi
    exact hm _ (getD_mem_of_lt m.cells i [] hi)
  · intro hm r hr
    obtain ⟨i, hi, hr⟩ := List.mem_iff_getElem.mp hr
    have := hm i hi
    rw [List.getD_eq_getElem?_getD, List.getElem?_eq_getElem hi] at this
    simpa [hr] using this

theorem rect_setCell (m : GameOfLifeModel) (i j : Nat) (b : Bool) (hm : Rect m) :
    Rect (setCell m i j b) := by
  rw [rect_iff_rowLen]
  intro i' hi'
  rw [rowLen_setCell, columns_setCell]
  rw [rows_setCell] at hi'
  exact (rect_iff_rowLen m).mp hm i' hi'

theorem cellAt_setCell_same (m : GameOfLifeModel) (i j : Nat) (b : Bool)
    (hi : i < rows m) (hj : j < (m.cells.getD i []).length) :
    cellAt (setCell m i j b) i j = b := by
  have hi' : i < m.cells.length := hi
  rw [List.getD_eq_getElem?_getD] at hj
  simp only [cellAt, setCell, List.getD_eq_getElem?_getD, List.getElem?_set]
  rw [List.getElem?_eq_getElem hi'] at hj
  simp only [Option.getD_some] at hj
  simp [hi', hj, List.getElem?_set]

theorem cellAt_setCell_ne (m : GameOfLifeModel) (i j i' j' : Nat) (b : Bool)
    (h : ¬(i' = i ∧ j' = j)) :
    cellAt (setCell m i j b) i' j' = cellAt m i' j' := by
  rcases eq_or_ne i i' with rfl | hne
  · have hj : j' ≠ j := fun hj => h ⟨rfl, hj⟩
    rcases Nat.lt_or_ge i (rows m) with hlt | hge
    · have hlt' : i < m.cells.length := hlt
      simp only [cellAt, setCell, List.getD_eq_getElem?_getD, List.getElem?_set]
      simp [hlt', Ne.symm hj]
    · rw [setCell_out_of_rows m i j b hge]
  · simp only [cellAt, setCell, List.getD_eq_getElem?_getD, List.getElem?_set]
    simp [hne]

theorem checkIndexIsValid_ok (m : GameOfLifeModel) (i j : Nat)
    (hi : i < rows m) (hj : j < columns m) :
    checkIndexIsValid m i j = .ok () := by
  unfold checkIndexIsValid
  rw [if_neg (by omega), if_neg (by omega)]

theorem reviveCell_nat_ok (m : GameOfLifeModel) (i j : Nat)
    (hi : i < rows m) (hj : j < columns m) :
    reviveCell m i j = .ok (setCell m i j true) := by
  unfold reviveCell
  rw [checkIndexIsValid_ok m i j hi hj]
  rw [if_neg (by omega), if_neg (by omega)]
  simp

theorem killCell_nat_ok (m : GameOfLifeModel) (i j : Nat)
    (hi : i < rows m) (hj : j < columns m) :
    killCell m i j = .ok (setCell m i j false) := by
  unfold killCell
  rw [checkIndexIsValid_ok m i j hi hj]
  rw [if_neg (by omega), if_neg (by omega)]
  simp

theorem reviveCell_ok_cases {m m' : GameOfLifeModel} {r c : Int}
    (h : reviveCell m r c = .ok m') :
    m' = m ∨ ∃ i j, m' = setCell m i j true := by
  unfold reviveCell at h
  split at h
  · exact absurd h (by simp)
  · split at h
    · exact absurd h (by simp)
    · split at h
      · simp only [Except.ok.injEq] at h
        exact Or.inl h.symm
      · simp only [Except.ok.injEq] at h
        exact Or.inr ⟨_, _, h.symm⟩

theorem killCell_ok_cases {m m' : GameOfLifeModel} {r c : Int}
    (h : killCell m r c = .ok m') :
    m' = m ∨ ∃ i j, m' = setCell m i j false := by
  unfold killCell at h
  split at h
  · exact absurd h (by simp)
  · split at h
    · exact absurd h (by simp)
    · split at h
      · simp only [Except.ok.injEq] at h
        exact Or.inl h.symm
      · simp only [Except.ok.injEq] at h
        exact Or.inr ⟨_, _, h.symm⟩

theorem setCell_shape (m : GameOfLifeModel) (i j : Nat) (b : Bool) :
    rows (setCell m i j b) = rows m ∧ columns (setCell m i j b) = columns m ∧
    (setCell m i j b).iteration = m.iteration :=
  ⟨rows_setCell m i j b, columns_setCell m i j b, rfl⟩

theorem reviveCell_ok_shape {m m' : GameOfLifeModel} {r c : Int}
    (h : reviveCell m r c = .ok m') :
    rows m' = rows m ∧ columns m' = columns m ∧ m'.iteration = m.iteration := by
  rcases reviveCell_ok_cases h with rfl | ⟨i, j, rfl⟩
  · exact ⟨rfl, rfl, rfl⟩
  · exact ⟨rows_setCell m i j true, columns_setCell m i j true, rfl⟩

theorem killCell_ok_shape {m m' : GameOfLifeModel} {r c : Int}
    (h : killCell m r c = .ok m') :
    rows m' = rows m ∧ columns m' = columns m ∧ m'.iteration = m.iteration := by
  rcases killCell_ok_cases h with rfl | ⟨i, j, rfl⟩
  · exact ⟨rfl, rfl, rfl⟩
  · exact ⟨rows_setCell m i j false, columns_setCell m i j false, rfl⟩

theorem applyChangesP_iteration (cs : List CellChanges) :
    ∀ m : GameOfLifeModel, (applyChangesP m cs).iteration = m.iteration := by
  induction cs with
  | nil => intro m; rfl
  | cons c rest ih =>
    intro m
    exact (ih (setCell m c.row c.column c.state)).trans rfl

theorem applyChangesP_rows (cs : List CellChanges) :
    ∀ m : GameOfLifeModel, rows (applyChangesP m cs) = rows m := by
  induction cs with
  | nil => intro m; rfl
  | cons c rest ih =>
    intro m
    exact (ih (setCell m c.row c.column c.state)).trans (rows_setCell m _ _ _)

theorem applyChangesP_rowLen (cs : List CellChanges) :
    ∀ (m : GameOfLifeModel) (i : Nat),
      ((applyChangesP m cs).cells.getD i []).length = (m.cells.getD i []).length := by
  induction cs with
  | nil => intro m i; rfl
  | cons c rest ih =>
    intro m i
    exact (ih (setCell m c.row c.column c.state) i).trans (rowLen_setCell m _ _ i _)

theorem applyChangesP_columns (cs : List CellChanges) (m : GameOfLifeModel) :
    columns (applyChangesP m cs) = columns m :=
  applyChangesP_rowLen cs m 0

theorem applyChangesP_cells_iter (cs : List CellChanges) :
    ∀ (x : List (List Bool)) (k k' : Nat),
      (applyChangesP ⟨x, k⟩ cs).cells = (applyChangesP ⟨x, k'⟩ cs).cells := by
  induction cs with
  | nil => intro x k k'; rfl
  | cons c rest ih =>
    intro x k k'
    exact ih _ k k'

theorem applyChanges_eq_ok (cs : List CellChanges) :
    ∀ m : GameOfLifeModel, (∀ c ∈ cs, c.row < rows m ∧ c.column < columns m) →
      applyChanges m cs = .ok (applyChangesP m cs) := by
  induction cs with
  | nil => intro m _; rfl
  | cons c rest ih =>
    intro m h
    obtain ⟨hr, hc⟩ := h c (List.mem_cons_self c rest)
    have hstep : (if c.state then reviveCell m c.row c.column else killCell m c.row c.column)
        = .ok (setCell m c.row c.column c.state) := by
      cases hs : c.state
      · rw [if_neg (by simp [hs])]
        exact killCell_nat_ok m c.row c.column hr hc
      · rw [if_pos (by simp [hs])]
        exact reviveCell_nat_ok m c.row c.column hr hc
    unfold applyChanges
    rw [hstep]
    exact ih (setCell m c.row c.column c.state) (fun c' hc' => by
      rw [rows_setCell, columns_setCell]
      exact h c' (List.mem_cons_of_mem c hc'))

theorem cellAt_applyChangesP_not_mem (cs : List CellChanges) :
    ∀ (m : GameOfLifeModel) (i j : Nat),
      (∀ c ∈ cs, ¬(c.row = i ∧ c.column = j)) →
      cellAt (applyChangesP m cs) i j = cellAt m i j := by
  induction cs with
  | nil => intro m i j _; rfl
  | cons c rest ih =>
    intro m i j h
    have h1 := ih (setCell m c.row c.column c.state) i j
      (fun c' hc' => h c' (List.mem_cons_of_mem c hc'))
    simp only [applyChangesP]
    rw [h1, cellAt_setCell_ne m c.row c.column i j c.state]
    intro ⟨h2, h3⟩
    exact h c (List.mem_cons_self c rest) ⟨h2.symm, h3.symm⟩

theorem cellAt_applyChangesP_mem (cs : List CellChanges) :
    ∀ (m : GameOfLifeModel) (i j : Nat) (s : Bool),
      (∃ c ∈ cs, c.row = i ∧ c.column = j) →
      (∀ c ∈ cs, (c.row = i ∧ c.column = j) → c.state = s) →
      i < rows m → j < (m.cells.getD i []).length →
      cellAt (applyChangesP m cs) i j = s := by
  induction cs with
  | nil =>
    intro m i j s hex _ _ _
    obtain ⟨c, hc, _⟩ := hex
    exact absurd hc (List.not_mem_nil c)
  | cons c rest ih =>
    intro m i j s hex hall hi hj
    by_cases hrest : ∃ c' ∈ rest, c'.row = i ∧ c'.column = j
    · exact ih (setCell m c.row c.column c.state) i j s hrest
        (fun c' hc' => hall c' (List.mem_cons_of_mem c hc'))
        (by rwa [rows_setCell]) (by rwa [rowLen_setCell])
    · have hc : c.row = i ∧ c.column = j := by
        obtain ⟨c', hc', hcoord⟩ := hex
        rcases List.mem_cons.mp hc' with rfl | hmem
        · exact hcoord
        · exact absurd ⟨c', hmem, hcoord⟩ hrest
      have hs : c.state = s := hall c (List.mem_cons_self c rest) hc
      obtain ⟨hr, hcol⟩ := hc
      subst hr
      subst hcol
      subst hs
      simp only [applyChangesP]
      rw [cellAt_applyChangesP_not_mem rest (setCell m c.row c.column c.state) c.row c.column
        (fun c' hc' hcoord => hrest ⟨c', hc', hcoord⟩)]
      exact cellAt_setCell_same m c.row c.column c.state hi hj

theorem changeAt_eq (m : GameOfLifeModel) (i j : Nat) :
    changeAt m i j =
      (if (neighbours m i j).living = 2 then none
       else some ⟨i, j, decide ((neighbours m i j).living = 3)⟩) := by
  unfold changeAt
  by_cases h3 : (neighbours m i j).living = 3
  · rw [if_pos h3, if_neg (by omega)]
    simp [h3]
  · rw [if_neg h3]
    by_cases h2 : (neighbours m i j).living = 2
    · rw [if_neg (by omega : ¬(neighbours m i j).living ≠ 2), if_pos h2]
    · rw [if_pos h2, if_neg h2]
      simp [h3]

theorem changeAt_some_coords {m : GameOfLifeModel} {i j : Nat} {c : CellChanges}
    (h : changeAt m i j = some c) : c.row = i ∧ c.column = j := by
  rw [changeAt_eq] at h
  by_cases h2 : (neighbours m i j).living = 2
  · rw [if_pos h2] at h
    exact absurd h (by simp)
  · rw [if_neg h2] at h
    simp only [Option.some.injEq] at h
    rw [← h]
    exact ⟨rfl, rfl⟩

theorem mem_computeChanges_iff (m : GameOfLifeModel) (c : CellChanges) :
    c ∈ computeChanges m ↔
      c.row < rows m ∧ c.column < (m.cells.getD c.row []).length ∧
        changeAt m c.row c.column = some c := by
  unfold computeChanges
  simp only [List.mem_flatMap, List.mem_filterMap, List.mem_range]
  constructor
  · rintro ⟨i, hi, j, hj, hc⟩
    obtain ⟨hr, hcol⟩ := changeAt_some_coords hc
    subst hr
    subst hcol
    exact ⟨hi, hj, hc⟩
  · rintro ⟨hi, hj, hc⟩
    exact ⟨c.row, hi, c.column, hj, hc⟩

theorem rect_rowLen (m : GameOfLifeModel) (hm : Rect m) (i : Nat) (hi : i < rows m) :
    (m.cells.getD i []).length = columns m :=
  (rect_iff_rowLen m).mp hm i hi

theorem computeChanges_in_range (m : GameOfLifeModel) (hm : Rect m) :
    ∀ c ∈ computeChanges m, c.row < rows m ∧ c.column < columns m := by
  intro c hc
  obtain ⟨h1, h2, _⟩ := (mem_computeChanges_iff m c).mp hc
  exact ⟨h1, by rwa [rect_rowLen m hm c.row h1] at h2⟩

theorem iterate_eq_ok (m : GameOfLifeModel) (hm : Rect m) :
    iterate m = .ok { applyChangesP m (computeChanges m) with iteration := m.iteration + 1 } := by
  unfold iterate
  rw [applyChanges_eq_ok (computeChanges m) m (computeChanges_in_range m hm)]
  show Except.ok ({ cells := (applyChangesP m (computeChanges m)).cells,
                    iteration := (applyChangesP m (computeChanges m)).iteration + 1 } :
      GameOfLifeModel) =
    Except.ok ({ cells := (applyChangesP m (computeChanges m)).cells,
                 iteration := m.iteration + 1 } : GameOfLifeModel)
  rw [applyChangesP_iteration (computeChanges m) m]

theorem cellAt_next_gen (m : GameOfLifeModel) (hm : Rect m) (i j : Nat)
    (hi : i < rows m) (hj : j < columns m) :
    cellAt (applyChangesP m (computeChanges m)) i j =
      (if (neighbours m i j).living = 3 then true
       else if (neighbours m i j).living ≠ 2 then false
       else cellAt m i j) := by
  have hj' : j < (m.cells.getD i []).length := by
    rw [rect_rowLen m hm i hi]
    exact hj
  by_cases h2 : (neighbours m i j).living = 2
  · rw [if_neg (by omega), if_neg (by simp [h2])]
    apply cellAt_applyChangesP_not_mem
    intro c hc hcoord
    obtain ⟨_, _, hc'⟩ := (mem_computeChanges_iff m c).mp hc
    rw [hcoord.1, hcoord.2, changeAt_eq, if_pos h2] at hc'
    exact absurd hc' (by simp)
  · have hsome : changeAt m i j = some ⟨i, j, decide ((neighbours m i j).living = 3)⟩ := by
      rw [changeAt_eq, if_neg h2]
    have hmem : (⟨i, j, decide ((neighbours m i j).living = 3)⟩ : CellChanges) ∈
        computeChanges m :=
      (mem_computeChanges_iff m _).mpr ⟨hi, hj', hsome⟩
    have hres : cellAt (applyChangesP m (computeChanges m)) i j =
        decide ((neighbours m i j).living = 3) := by
      apply cellAt_applyChangesP_mem (computeChanges m) m i j _ ⟨_, hmem, rfl, rfl⟩ _ hi hj'
      intro c hc hcoord
      obtain ⟨_, _, hc'⟩ := (mem_computeChanges_iff m c).mp hc
      rw [hcoord.1, hcoord.2, hsome] at hc'
      simp only [Option.some.injEq] at hc'
      rw [← hc']
    rw [hres]
    by_cases h3 : (neighbours m i j).living = 3
    · rw [if_pos h3]
      simp [h3]
    · rw [if_neg h3, if_pos h2]
      simp [h3]

theorem lifeAt_eq (m : GameOfLifeModel) (r c : Int) :
    lifeAt m r c =
      (if (rows m : Int) ≤ r then .error .outOfRange
       else if (columns m : Int) ≤ c then .error .outOfRange
       else if r < 0 then .error .typeError
       else if c < 0 then .ok false
       else .ok (cellAt m r.toNat c.toNat)) := by
  unfold lifeAt checkIndexIsValid
  by_cases h1 : (rows m : Int) ≤ r
  · rw [if_pos h1, if_pos h1]
  · rw [if_neg h1, if_neg h1]
    by_cases h2 : (columns m : Int) ≤ c
    · rw [if_pos h2, if_pos h2]
    · rw [if_neg h2, if_neg h2]

theorem toNat_lifeAtOrDead (m : GameOfLifeModel) (r c : Int) :
    (lifeAtOrDead m r c).toNat = inGridAlive m r c := by
  unfold lifeAtOrDead inGridAlive
  rw [lifeAt_eq]
  by_cases h1 : (rows m : Int) ≤ r
  · rw [if_pos h1, if_neg (by omega)]
    rfl
  · rw [if_neg h1]
    by_cases h2 : (columns m : Int) ≤ c
    · rw [if_pos h2, if_neg (by omega)]
      rfl
    · rw [if_neg h2]
      by_cases h3 : r < 0
      · rw [if_pos h3, if_neg (by omega)]
        rfl
      · rw [if_neg h3]
        by_cases h4 : c < 0
        · rw [if_pos h4, if_neg (by omega)]
          rfl
        · rw [if_neg h4]
          cases hcell : cellAt m r.toNat c.toNat
          · rw [if_neg (by simp [hcell])]
            rfl
          · rw [if_pos ⟨by omega, by omega, by omega, by omega, rfl⟩]
            rfl

theorem living_eq_spec (m : GameOfLifeModel) (row column : Int) :
    (neighbours m row column).living = specLiveNeighbourCount m row column := by
  show (lifeAtOrDead m (row - 1) column).toNat + (lifeAtOrDead m (row - 1) (column + 1)).toNat +
    (lifeAtOrDead m row (column + 1)).toNat + (lifeAtOrDead m (row + 1) (column + 1)).toNat +
    (lifeAtOrDead m (row + 1) column).toNat + (lifeAtOrDead m (row + 1) (column - 1)).toNat +
    (lifeAtOrDead m row (column - 1)).toNat + (lifeAtOrDead m (row - 1) (column - 1)).toNat = _
  rw [toNat_lifeAtOrDead, toNat_lifeAtOrDead, toNat_lifeAtOrDead, toNat_lifeAtOrDead,
    toNat_lifeAtOrDead, toNat_lifeAtOrDead, toNat_lifeAtOrDead, toNat_lifeAtOrDead]
  rfl

theorem map_getD_range {α : Type} (d : α) (l : List α) :
    (List.range l.length).map (fun i => l.getD i d) = l := by
  induction l with
  | nil => rfl
  | cons x xs ih =>
    rw [List.length_cons, List.range_succ_eq_map, List.map_cons, List.map_map]
    have hfun : ((fun i => (x :: xs).getD i d) ∘ Nat.succ) = fun i => xs.getD i d := by
      funext i
      simp [List.getD_eq_getElem?_getD]
    rw [hfun, ih]
    rfl

theorem flatMap_congr_mem {α β : Type} (l : List α) (f g : α → List β)
    (h : ∀ x ∈ l, f x = g x) : l.flatMap f = l.flatMap g := by
  induction l with
  | nil => rfl
  | cons x xs ih =>
    simp only [List.flatMap_cons]
    rw [h x (List.mem_cons_self x xs), ih (fun y hy => h y (List.mem_cons_of_mem x hy))]

theorem construct_nat_ok (r c : Nat) (h1 : 1 ≤ r) (h2 : 1 ≤ c) :
    construct (r : Int) (c : Int) =
      .ok { cells := List.replicate r (List.replicate c false), iteration := 0 } := by
  unfold construct
  rw [if_neg (by omega), if_neg (by omega)]
  rw [Int.toNat_natCast, Int.toNat_natCast]

theorem copy_ok (m : GameOfLifeModel) (h1 : 1 ≤ rows m) (h2 : 1 ≤ columns m) :
    copy m = .ok { cells := m.cells, iteration := 0 } := by
  have hfun : (fun i => (m.cells.getD i []).map (fun e => e)) =
      fun i => m.cells.getD i [] := by
    funext i
    simp
  unfold copy
  rw [construct_nat_ok (rows m) (columns m) h1 h2]
  simp only [rows, List.length_replicate, hfun, Except.ok.injEq, GameOfLifeModel.mk.injEq]
  exact ⟨map_getD_range [] m.cells, trivial⟩

theorem applyChanges_append (cs ds : List CellChanges) :
    ∀ m : GameOfLifeModel, applyChanges m (cs ++ ds) =
      (match applyChanges m cs with
       | .error e => .error e
       | .ok m2 => applyChanges m2 ds) := by
  induction cs with
  | nil => intro m; rfl
  | cons c rest ih =>
    intro m
    simp only [List.cons_append, applyChanges]
    cases hstep : (if c.state then reviveCell m c.row c.column
        else killCell m c.row c.column) with
    | error e => rfl
    | ok m2 => exact ih m2

theorem applyChanges_ok_shape (cs : List CellChanges) :
    ∀ {m m' : GameOfLifeModel}, applyChanges m cs = .ok m' →
      rows m' = rows m ∧ columns m' = columns m ∧ m'.iteration = m.iteration := by
  induction cs with
  | nil =>
    intro m m' h
    simp only [applyChanges, Except.ok.injEq] at h
    rw [← h]
    exact ⟨rfl, rfl, rfl⟩
  | cons c rest ih =>
    intro m m' h
    simp only [applyChanges] at h
    cases hres : (if c.state then reviveCell m c.row c.column
        else killCell m c.row c.column) with
    | error e =>
      rw [hres] at h
      exact absurd h (by simp)
    | ok m2 =>
      rw [hres] at h
      obtain ⟨ha, hb, hc2⟩ := ih h
      have hshape : rows m2 = rows m ∧ columns m2 = columns m ∧ m2.iteration = m.iteration := by
        cases hcs : c.state
        · rw [if_neg (by simp [hcs])] at hres
          exact killCell_ok_shape hres
        · rw [if_pos (by simp [hcs])] at hres
          exact reviveCell_ok_shape hres
      exact ⟨ha.trans hshape.1, hb.trans hshape.2.1, hc2.trans hshape.2.2⟩

theorem mainLoopInner_eq (src : GameOfLifeModel) (i : Nat) (js : List Nat) :
    ∀ acc : GameOfLifeModel, mainLoopInner src i acc js =
      applyChanges acc (js.filterMap (fun j => changeAt src i j)) := by
  induction js with
  | nil => intro acc; rfl
  | cons j js ih =>
    intro acc
    have hstep : (if (neighbours src i j).living = 3 then reviveCell acc i j
        else if (neighbours src i j).living ≠ 2 then killCell acc i j
        else .ok acc) =
        (match changeAt src i j with
         | none => .ok acc
         | some ch => if ch.state then reviveCell acc ch.row ch.column
                      else killCell acc ch.row ch.column) := by
      rw [changeAt_eq]
      by_cases h2 : (neighbours src i j).living = 2
      · rw [if_pos h2, if_neg (by omega),
          if_neg (by omega : ¬(neighbours src i j).living ≠ 2)]
      · rw [if_neg h2]
        by_cases h3 : (neighbours src i j).living = 3
        · rw [if_pos h3]
          simp [h3]
        · rw [if_neg h3, if_pos h2]
          simp [h3]
    simp only [mainLoopInner, List.filterMap_cons]
    cases hc : changeAt src i j with
    | none =>
      rw [hc] at hstep
      rw [hstep]
      exact ih acc
    | some ch =>
      rw [hc] at hstep
      rw [hstep]
      simp only [applyChanges]
      cases hres : (if ch.state then reviveCell acc ch.row ch.column
          else killCell acc ch.row ch.column) with
      | error e => rfl
      | ok acc2 => exact ih acc2

theorem mainLoopOuter_eq (src : GameOfLifeModel) (is : List Nat) :
    ∀ acc : GameOfLifeModel, mainLoopOuter src acc is =
      applyChanges acc (is.flatMap (fun i =>
        (List.range (columns acc)).filterMap (fun j => changeAt src i j))) := by
  induction is with
  | nil => intro acc; rfl
  | cons i is ih =>
    intro acc
    simp only [mainLoopOuter, List.flatMap_cons]
    rw [mainLoopInner_eq src i (List.range (columns acc)) acc]
    rw [applyChanges_append]
    cases hres : applyChanges acc
        ((List.range (columns acc)).filterMap (fun j => changeAt src i j)) with
    | error e => rfl
    | ok acc2 =>
      show mainLoopOuter src acc2 is =
        applyChanges acc2 (is.flatMap (fun i =>
          (List.range (columns acc)).filterMap (fun j => changeAt src i j)))
      rw [ih acc2]
      have hcol : columns acc2 = columns acc := (applyChanges_ok_shape _ hres).2.1
      simp only [hcol]

theorem computeChanges_eq_rect (m : GameOfLifeModel) (hm : Rect m) :
    computeChanges m = (List.range (rows m)).flatMap (fun i =>
      (List.range (columns m)).filterMap (fun j => changeAt m i j)) := by
  unfold computeChanges
  apply flatMap_congr_mem
  intro i hi
  rw [rect_rowLen m hm i (List.mem_range.mp hi)]

theorem iterate_variants_agree (m : GameOfLifeModel) (hm : Rect m)
    (h1 : 1 ≤ rows m) (h2 : 1 ≤ columns m) :
    iterateMainTs m = iterate m := by
  unfold iterateMainTs
  rw [copy_ok m h1 h2]
  show (match mainLoopOuter m ⟨m.cells, 0⟩ (List.range (rows m)) with
        | .error e => (.error e : Except JsError GameOfLifeModel)
        | .ok c2 => .ok { cells := c2.cells, iteration := m.iteration + 1 }) = iterate m
  rw [mainLoopOuter_eq m (List.range (rows m)) ⟨m.cells, 0⟩]
  have hc0 : columns (⟨m.cells, 0⟩ : GameOfLifeModel) = columns m := rfl
  simp only [hc0]
  rw [← computeChanges_eq_rect m hm]
  rw [applyChanges_eq_ok (computeChanges m) ⟨m.cells, 0⟩
    (computeChanges_in_range m hm)]
  rw [iterate_eq_ok m hm]
  show Except.ok ({ cells := (applyChangesP ⟨m.cells, 0⟩ (computeChanges m)).cells,
                    iteration := m.iteration + 1 } : GameOfLifeModel) =
       Except.ok ({ cells := (applyChangesP m (computeChanges m)).cells,
                    iteration := m.iteration + 1 } : GameOfLifeModel)
  rw [show (applyChangesP (⟨m.cells, 0⟩ : GameOfLifeModel) (computeChanges m)).cells
      = (applyChangesP m (computeChanges m)).cells from
    applyChangesP_cells_iter (computeChanges m) m.cells 0 m.iteration]

theorem reviveCell_eq (m : GameOfLifeModel) (r c : Int) :
    reviveCell m r c =
      (if (rows m : Int) ≤ r then .error .outOfRange
       else if (columns m : Int) ≤ c then .error .outOfRange
       else if r < 0 then .error .typeError
       else if c < 0 then .ok m
       else .ok (setCell m r.toNat c.toNat true)) := by
  unfold reviveCell checkIndexIsValid
  by_cases h1 : (rows m : Int) ≤ r
  · rw [if_pos h1, if_pos h1]
  · rw [if_neg h1, if_neg h1]
    by_cases h2 : (columns m : Int) ≤ c
    · rw [if_pos h2, if_pos h2]
    · rw [if_neg h2, if_neg h2]

theorem killCell_eq (m : GameOfLifeModel) (r c : Int) :
    killCell m r c =
      (if (rows m : Int) ≤ r then .error .outOfRange
       else if (columns m : Int) ≤ c then .error .outOfRange
       else if r < 0 then .error .typeError
       else if c < 0 then .ok m
       else .ok (setCell m r.toNat c.toNat false)) := by
  unfold killCell checkIndexIsValid
  by_cases h1 : (rows m : Int) ≤ r
  · rw [if_pos h1, if_pos h1]
  · rw [if_neg h1, if_neg h1]
    by_cases h2 : (columns m : Int) ≤ c
    · rw [if_pos h2, if_pos h2]
    · rw [if_neg h2, if_neg h2]

theorem construct_ok_iteration {r c : Int} {m : GameOfLifeModel}
    (h : construct r c = .ok m) : m.iteration = 0 := by
  unfold construct at h
  split_ifs at h
  simp only [Except.ok.injEq] at h
  rw [← h]

theorem iterate_ok_iteration {m m' : GameOfLifeModel}
    (h : iterate m = .ok m') : m'.iteration = m.iteration + 1 := by
  unfold iterate at h
  cases hres : applyChanges m (computeChanges m) with
  | error e =>
    rw [hres] at h
    exact absurd h (by simp)
  | ok m2 =>
    rw [hres] at h
    simp only [Except.ok.injEq] at h
    rw [← h]
    show m2.iteration + 1 = m.iteration + 1
    rw [(applyChanges_ok_shape _ hres).2.2]

theorem inGridAlive_in (m : GameOfLifeModel) (r c : Int)
    (h1 : 0 ≤ r) (h2 : r < (rows m : Int)) (h3 : 0 ≤ c) (h4 : c < (columns m : Int)) :
    inGridAlive m r c = (cellAt m r.toNat c.toNat).toNat := by
  unfold inGridAlive
  cases hcell : cellAt m r.toNat c.toNat
  · rw [if_neg (fun hcon => absurd hcon.2.2.2.2 (by simp))]
    rfl
  · rw [if_pos ⟨h1, h2, h3, h4, rfl⟩]
    rfl

theorem inGridAlive_out (m : GameOfLifeModel) (r c : Int)
    (h : ¬(0 ≤ r ∧ r < (rows m : Int) ∧ 0 ≤ c ∧ c < (columns m : Int))) :
    inGridAlive m r c = 0 := by
  unfold inGridAlive
  rw [if_neg (fun hcon => h ⟨hcon.1, hcon.2.1, hcon.2.2.1, hcon.2.2.2.1⟩)]

theorem cellAt_replicate_false (n k i j : Nat) :
    ((List.replicate n (List.replicate k false)).getD i []).getD j false = false := by
  have houter : (List.replicate n (List.replicate k false)).getD i [] =
      (if i < n then List.replicate k false else []) := by
    rw [List.getD_eq_getElem?_getD (List.replicate n (List.replicate k false)) i,
      List.getElem?_replicate]
    by_cases hi : i < n
    · rw [if_pos hi, if_pos hi]
      rfl
    · rw [if_neg hi, if_neg hi]
      rfl
  rw [houter]
  by_cases hi : i < n
  · rw [if_pos hi]
    rw [List.getD_eq_getElem?_getD, List.getElem?_replicate]
    by_cases hj : j < k
    · rw [if_pos hj]
      rfl
    · rw [if_neg hj]
      rfl
  · rw [if_neg hi]
    rfl

theorem cells_addRow (m : GameOfLifeModel) :
    (addRow m).cells = m.cells ++ [List.replicate (columns m) false] := rfl

theorem cells_addColumn (m : GameOfLifeModel) :
    (addColumn m).cells = m.cells.map (fun r => r ++ [false]) := rfl

theorem cells_removeRow (m : GameOfLifeModel) (h : ¬rows m = 1) :
    (removeRow m).cells = m.cells.dropLast := by
  unfold removeRow
  rw [if_neg h]

theorem cells_removeColumn (m : GameOfLifeModel) (h : ¬columns m = 1) :
    (removeColumn m).cells = m.cells.map (fun r => r.dropLast) := by
  unfold removeColumn
  rw [if_neg h]

theorem rows_addRow (m : GameOfLifeModel) : rows (addRow m) = rows m + 1 := by
  unfold rows
  rw [cells_addRow]
  simp

theorem columns_addRow (m : GameOfLifeModel) (h1 : 1 ≤ rows m) :
    columns (addRow m) = columns m := by
  have h1' : 0 < m.cells.length := h1
  unfold columns
  rw [cells_addRow]
  have hrow : (m.cells ++ [List.replicate ((m.cells.getD 0 []).length) false]).getD 0 [] =
      m.cells.getD 0 [] := by
    rw [List.getD_eq_getElem?_getD, List.getD_eq_getElem?_getD, List.getElem?_append,
      if_pos h1']
  exact congrArg List.length hrow

theorem cellAt_addRow_old (m : GameOfLifeModel) (i j : Nat) (hi : i < rows m) :
    cellAt (addRow m) i j = cellAt m i j := by
  have hi' : i < m.cells.length := hi
  unfold cellAt
  rw [cells_addRow]
  have hrow : (m.cells ++ [List.replicate (columns m) false]).getD i [] =
      m.cells.getD i [] := by
    rw [List.getD_eq_getElem?_getD, List.getD_eq_getElem?_getD, List.getElem?_append,
      if_pos hi']
  rw [hrow]

theorem cellAt_addRow_new (m : GameOfLifeModel) (j : Nat) :
    cellAt (addRow m) (rows m) j = false := by
  unfold cellAt
  rw [cells_addRow]
  have hrow : (m.cells ++ [List.replicate (columns m) false]).getD (rows m) [] =
      List.replicate (columns m) false := by
    show (m.cells ++ [List.replicate (columns m) false]).getD m.cells.length [] = _
    rw [List.getD_eq_getElem?_getD, List.getElem?_append_right (le_refl _), Nat.sub_self]
    rfl
  rw [hrow]
  rw [List.getD_eq_getElem?_getD, List.getElem?_replicate]
  by_cases hj : j < columns m
  · rw [if_pos hj]
    rfl
  · rw [if_neg hj]
    rfl

theorem rows_addColumn (m : GameOfLifeModel) : rows (addColumn m) = rows m := by
  unfold rows
  rw [cells_addColumn]
  simp

theorem columns_addColumn (m : GameOfLifeModel) (h1 : 1 ≤ rows m) :
    columns (addColumn m) = columns m + 1 := by
  unfold columns
  rw [cells_addColumn]
  cases hc : m.cells with
  | nil =>
    have hz : rows m = 0 := by simp [rows, hc]
    omega
  | cons x xs => simp

theorem cellAt_addColumn_old (m : GameOfLifeModel) (i j : Nat)
    (hj : j < (m.cells.getD i []).length) :
    cellAt (addColumn m) i j = cellAt m i j := by
  unfold cellAt
  rw [cells_addColumn]
  by_cases hi : i < m.cells.length
  · have hrow : (m.cells.map (fun r => r ++ [false])).getD i [] =
        m.cells.getD i [] ++ [false] := by
      rw [List.getD_eq_getElem?_getD, List.getElem?_map, List.getElem?_eq_getElem hi,
        List.getD_eq_getElem?_getD, List.getElem?_eq_getElem hi]
      rfl
    rw [hrow]
    rw [List.getD_eq_getElem?_getD (m.cells.getD i [] ++ [false]) j false,
      List.getElem?_append, if_pos hj,
      List.getD_eq_getElem?_getD (m.cells.getD i []) j false]
  · have hmap : (m.cells.map (fun r => r ++ [false])).getD i [] = [] := by
      rw [List.getD_eq_getElem?_getD,
        List.getElem?_eq_none (by simp only [List.length_map]; omega)]
      rfl
    have hbase : m.cells.getD i [] = [] := by
      rw [List.getD_eq_getElem?_getD, List.getElem?_eq_none (by omega)]
      rfl
    rw [hmap, hbase]

theorem cellAt_addColumn_new (m : GameOfLifeModel) (hm : Rect m) (i : Nat)
    (hi : i < rows m) :
    cellAt (addColumn m) i (columns m) = false := by
  have hi' : i < m.cells.length := hi
  have hlen : (m.cells.getD i []).length = columns m := rect_rowLen m hm i hi
  unfold cellAt
  rw [cells_addColumn]
  have hrow : (m.cells.map (fun r => r ++ [false])).getD i [] =
      m.cells.getD i [] ++ [false] := by
    rw [List.getD_eq_getElem?_getD, List.getElem?_map, List.getElem?_eq_getElem hi',
      List.getD_eq_getElem?_getD, List.getElem?_eq_getElem hi']
    rfl
  rw [hrow]
  rw [List.getD_eq_getElem?_getD, List.getElem?_append_right (by omega)]
  rw [show columns m - (m.cells.getD i []).length = 0 from by omega]
  rfl

theorem removeRow_eq_self (m : GameOfLifeModel) (h : rows m = 1) : removeRow m = m := by
  unfold removeRow
  rw [if_pos h]

theorem rows_removeRow (m : GameOfLifeModel) (h : 2 ≤ rows m) :
    rows (removeRow m) = rows m - 1 := by
  unfold rows
  rw [cells_removeRow m (by omega)]
  rw [List.length_dropLast]

theorem getD_dropLast {a : Type} (l : List a) (i : Nat) (d : a) (hi : i < l.length - 1) :
    (l.dropLast).getD i d = l.getD i d := by
  rw [List.dropLast_eq_take, List.getD_eq_getElem?_getD, List.getD_eq_getElem?_getD,
    List.getElem?_take]
  rw [if_pos hi]

theorem columns_removeRow (m : GameOfLifeModel) (h : 2 ≤ rows m) :
    columns (removeRow m) = columns m := by
  have h' : 2 ≤ m.cells.length := h
  unfold columns
  rw [cells_removeRow m (by omega)]
  exact congrArg List.length (getD_dropLast m.cells 0 [] (by omega))

theorem cellAt_removeRow (m : GameOfLifeModel) (i j : Nat) (h : 2 ≤ rows m)
    (hi : i < rows m - 1) :
    cellAt (removeRow m) i j = cellAt m i j := by
  have h' : 2 ≤ m.cells.length := h
  have hi' : i < m.cells.length - 1 := hi
  unfold cellAt
  rw [cells_removeRow m (by omega)]
  rw [getD_dropLast m.cells i [] hi']

theorem removeColumn_eq_self (m : GameOfLifeModel) (h : columns m = 1) :
    removeColumn m = m := by
  unfold removeColumn
  rw [if_pos h]

theorem rows_removeColumn (m : GameOfLifeModel) : rows (removeColumn m) = rows m := by
  unfold removeColumn
  split_ifs
  · rfl
  · show (m.cells.map (fun r => r.dropLast)).length = rows m
    rw [List.length_map]
    rfl

theorem columns_removeColumn (m : GameOfLifeModel) (h1 : 1 ≤ rows m)
    (h : 2 ≤ columns m) :
    columns (removeColumn m) = columns m - 1 := by
  unfold columns
  rw [cells_removeColumn m (by omega)]
  show ((m.cells.map (fun r => r.dropLast)).getD 0 []).length =
    (m.cells.getD 0 []).length - 1
  cases hc : m.cells with
  | nil =>
    have hz : rows m = 0 := by simp [rows, hc]
    omega
  | cons x xs =>
    simp [List.length_dropLast]

theorem cellAt_removeColumn (m : GameOfLifeModel) (hm : Rect m) (i j : Nat)
    (hi : i < rows m) (h : 2 ≤ columns m) (hj : j < columns m - 1) :
    cellAt (removeColumn m) i j = cellAt m i j := by
  have hi' : i < m.cells.length := hi
  have hlen : (m.cells.getD i []).length = columns m := rect_rowLen m hm i hi
  unfold cellAt
  rw [cells_removeColumn m (by omega)]
  have hrow : (m.cells.map (fun r => r.dropLast)).getD i [] =
      (m.cells.getD i []).dropLast := by
    rw [List.getD_eq_getElem?_getD, List.getElem?_map, List.getElem?_eq_getElem hi',
      List.getD_eq_getElem?_getD, List.getElem?_eq_getElem hi']
    rfl
  rw [hrow]
  exact getD_dropLast (m.cells.getD i []) j false (by omega)

theorem living_le_eight (n : CellNeighbours) : n.living ≤ 8 := by
  have h1 := Bool.toNat_le n.north
  have h2 := Bool.toNat_le n.northEast
  have h3 := Bool.toNat_le n.east
  have h4 := Bool.toNat_le n.southEast
  have h5 := Bool.toNat_le n.south
  have h6 := Bool.toNat_le n.southWest
  have h7 := Bool.toNat_le n.west
  have h8 := Bool.toNat_le n.northWest
  unfold CellNeighbours.living
  omega

end GameOfLifeModel

namespace HModel

theorem rows_toModel (h : RowHeap) (a : HModel) :
    GameOfLifeModel.rows (toModel h a) = hrows a := by
  simp [toModel, hview, GameOfLifeModel.rows, hrows]

theorem columns_toModel (h : RowHeap) (a : HModel) :
    GameOfLifeModel.columns (toModel h a) = hcolumns h a := by
  rcases a with ⟨ids, k⟩
  cases ids with
  | nil => rfl
  | cons id rest => rfl

theorem length_hsetRow (h : RowHeap) (id : Nat) (r : List Bool) :
    (hsetRow h id r).store.length = h.store.length := by
  simp [hsetRow]

theorem hview_hsetRow_ne (h : RowHeap) (b : HModel) (id : Nat) (r : List Bool)
    (hid : id ∉ b.rowIds) : hview (hsetRow h id r) b = hview h b := by
  unfold hview hsetRow
  apply List.map_congr_left
  intro id' hid'
  have hne : id ≠ id' := fun he => hid (he ▸ hid')
  simp [List.getD_eq_getElem?_getD, List.getElem?_set_ne hne]

theorem hview_append (h : RowHeap) (b : HModel) (t : List (List Bool))
    (hwf : WfH h b) : hview ⟨h.store ++ t⟩ b = hview h b := by
  unfold hview
  apply List.map_congr_left
  intro id' hid'
  have hlt := hwf id' hid'
  simp [List.getD_eq_getElem?_getD, List.getElem?_append, hlt]

theorem getD_mem_rowIds (a : HModel) (i : Nat) (hi : i < hrows a) :
    a.rowIds.getD i 0 ∈ a.rowIds :=
  GameOfLifeModel.getD_mem_of_lt a.rowIds i 0 hi

theorem setCellH_frame (h : RowHeap) (a b : HModel) (i j : Nat) (bl : Bool)
    (hi : i < hrows a) (hd : IdsDisjoint a b) :
    hview (setCellH h a i j bl) b = hview h b := by
  unfold setCellH
  exact hview_hsetRow_ne h b _ _ (hd _ (getD_mem_rowIds a i hi))

theorem length_setCellH (h : RowHeap) (a : HModel) (i j : Nat) (bl : Bool) :
    (setCellH h a i j bl).store.length = h.store.length :=
  length_hsetRow h _ _

theorem reviveCellH_eq (h : RowHeap) (a : HModel) (r c : Int) :
    reviveCellH h a r c =
      (if (hrows a : Int) ≤ r then .error .outOfRange
       else if (hcolumns h a : Int) ≤ c then .error .outOfRange
       else if r < 0 then .error .typeError
       else if c < 0 then .ok h
       else .ok (setCellH h a r.toNat c.toNat true)) := by
  unfold reviveCellH GameOfLifeModel.checkIndexIsValid
  rw [rows_toModel, columns_toModel]
  by_cases h1 : (hrows a : Int) ≤ r
  · rw [if_pos h1, if_pos h1]
  · rw [if_neg h1, if_neg h1]
    by_cases h2 : (hcolumns h a : Int) ≤ c
    · rw [if_pos h2, if_pos h2]
    · rw [if_neg h2, if_neg h2]

theorem killCellH_eq (h : RowHeap) (a : HModel) (r c : Int) :
    killCellH h a r c =
      (if (hrows a : Int) ≤ r then .error .outOfRange
       else if (hcolumns h a : Int) ≤ c then .error .outOfRange
       else if r < 0 then .error .typeError
       else if c < 0 then .ok h
       else .ok (setCellH h a r.toNat c.toNat false)) := by
  unfold killCellH GameOfLifeModel.checkIndexIsValid
  rw [rows_toModel, columns_toModel]
  by_cases h1 : (hrows a : Int) ≤ r
  · rw [if_pos h1, if_pos h1]
  · rw [if_neg h1, if_neg h1]
    by_cases h2 : (hcolumns h a : Int) ≤ c
    · rw [if_pos h2, if_pos h2]
    · rw [if_neg h2, if_neg h2]

theorem reviveCellH_frame (h : RowHeap) (a b : HModel) (r c : Int) (h2 : RowHeap)
    (hd : IdsDisjoint a b) (hok : reviveCellH h a r c = .ok h2) :
    hview h2 b = hview h b ∧ h2.store.length = h.store.length := by
  rw [reviveCellH_eq] at hok
  by_cases h1 : (hrows a : Int) ≤ r
  · rw [if_pos h1] at hok
    exact absurd hok (by simp)
  · rw [if_neg h1] at hok
    by_cases hc2 : (hcolumns h a : Int) ≤ c
    · rw [if_pos hc2] at hok
      exact absurd hok (by simp)
    · rw [if_neg hc2] at hok
      by_cases h3 : r < 0
      · rw [if_pos h3] at hok
        exact absurd hok (by simp)
      · rw [if_neg h3] at hok
        by_cases h4 : c < 0
        · rw [if_pos h4] at hok
          simp only [Except.ok.injEq] at hok
          rw [← hok]
          exact ⟨rfl, rfl⟩
        · rw [if_neg h4] at hok
          simp only [Except.ok.injEq] at hok
          rw [← hok]
          exact ⟨setCellH_frame h a b _ _ _ (by omega) hd, length_setCellH h a _ _ _⟩

theorem killCellH_frame (h : RowHeap) (a b : HModel) (r c : Int) (h2 : RowHeap)
    (hd : IdsDisjoint a b) (hok : killCellH h a r c = .ok h2) :
    hview h2 b = hview h b ∧ h2.store.length = h.store.length := by
  rw [killCellH_eq] at hok
  by_cases h1 : (hrows a : Int) ≤ r
  · rw [if_pos h1] at hok
    exact absurd hok (by simp)
  · rw [if_neg h1] at hok
    by_cases hc2 : (hcolumns h a : Int) ≤ c
    · rw [if_pos hc2] at hok
      exact absurd hok (by simp)
    · rw [if_neg hc2] at hok
      by_cases h3 : r < 0
      · rw [if_pos h3] at hok
        exact absurd hok (by simp)
      · rw [if_neg h3] at hok
        by_cases h4 : c < 0
        · rw [if_pos h4] at hok
          simp only [Except.ok.injEq] at hok
          rw [← hok]
          exact ⟨rfl, rfl⟩
        · rw [if_neg h4] at hok
          simp only [Except.ok.injEq] at hok
          rw [← hok]
          exact ⟨setCellH_frame h a b _ _ _ (by omega) hd, length_setCellH h a _ _ _⟩

theorem applyChangesH_frame (cs : List GameOfLife.CellChanges) :
    ∀ (h : RowHeap) (a b : HModel) (h2 : RowHeap), IdsDisjoint a b →
      applyChangesH h a cs = .ok h2 →
      hview h2 b = hview h b ∧ h2.store.length = h.store.length := by
  induction cs with
  | nil =>
    intro h a b h2 _ hok
    simp only [applyChangesH, Except.ok.injEq] at hok
    rw [← hok]
    exact ⟨rfl, rfl⟩
  | cons c rest ih =>
    intro h a b h2 hd hok
    simp only [applyChangesH] at hok
    cases hres : (if c.state then reviveCellH h a c.row c.column
        else killCellH h a c.row c.column) with
    | error e =>
      rw [hres] at hok
      exact absurd hok (by simp)
    | ok hmid =>
      rw [hres] at hok
      obtain ⟨hv, hl⟩ := ih hmid a b h2 hd hok
      have hstep : hview hmid b = hview h b ∧ hmid.store.length = h.store.length := by
        cases hcs : c.state
        · rw [if_neg (by simp [hcs])] at hres
          exact killCellH_frame h a b _ _ hmid hd hres
        · rw [if_pos (by simp [hcs])] at hres
          exact reviveCellH_frame h a b _ _ hmid hd hres
      exact ⟨hv.trans hstep.1, hl.trans hstep.2⟩

theorem foldl_hsetRow_length (f : RowHeap → Nat → List Bool) :
    ∀ (ids : List Nat) (h : RowHeap),
      ((ids.foldl (fun hh id => hsetRow hh id (f hh id)) h)).store.length =
        h.store.length := by
  intro ids
  induction ids with
  | nil => intro h; rfl
  | cons id ids ih =>
    intro h
    simp only [List.foldl_cons]
    exact (ih (hsetRow h id (f h id))).trans (length_hsetRow h id (f h id))

theorem foldl_hsetRow_frame (f : RowHeap → Nat → List Bool) :
    ∀ (ids : List Nat) (h : RowHeap) (b : HModel),
      (∀ id ∈ ids, id ∉ b.rowIds) →
      hview (ids.foldl (fun hh id => hsetRow hh id (f hh id)) h) b = hview h b := by
  intro ids
  induction ids with
  | nil => intro h b _; rfl
  | cons id ids ih =>
    intro h b hd
    simp only [List.foldl_cons]
    exact (ih (hsetRow h id (f h id)) b
      (fun x hx => hd x (List.mem_cons_of_mem id hx))).trans
      (hview_hsetRow_ne h b id (f h id) (hd id (List.mem_cons_self id ids)))

theorem getD_map_range {b : Type} (f : Nat → b) (n i : Nat) (d : b) (hi : i < n) :
    ((List.range n).map f).getD i d = f i := by
  rw [List.getD_eq_getElem?_getD, List.getElem?_map, List.getElem?_range hi]
  rfl

theorem map_getD_range_comp {a b : Type} (d : a) (g : a → b) (l : List a) :
    (List.range l.length).map (fun i => g (l.getD i d)) = l.map g := by
  induction l with
  | nil => rfl
  | cons x xs ih =>
    rw [List.length_cons, List.range_succ_eq_map, List.map_cons, List.map_map]
    have hfun : ((fun i => g ((x :: xs).getD i d)) ∘ Nat.succ) =
        fun i => g (xs.getD i d) := by
      funext i
      simp [List.getD_eq_getElem?_getD]
    rw [hfun, ih]
    rfl

theorem applyOpH_frame (h : RowHeap) (a b : HModel) (op : MOp) (h' : RowHeap) (a' : HModel)
    (hwa : WfH h a) (hwb : WfH h b) (hd : IdsDisjoint a b) (hd2 : IdsDisjoint b a)
    (hok : applyOpH h a op = .ok (h', a')) :
    hview h' b = hview h b ∧ WfH h' a' ∧ WfH h' b ∧ IdsDisjoint a' b ∧ IdsDisjoint b a' := by
  cases op with
  | revive r c =>
    simp only [applyOpH] at hok
    cases hres : reviveCellH h a r c with
    | error e =>
      rw [hres] at hok
      exact absurd hok (by simp [Except.map])
    | ok hmid =>
      rw [hres] at hok
      simp only [Except.map, Except.ok.injEq, Prod.mk.injEq] at hok
      obtain ⟨rfl, rfl⟩ := hok
      obtain ⟨hv, hl⟩ := reviveCellH_frame h a b r c _ hd hres
      exact ⟨hv, fun x hx => hl ▸ hwa x hx, fun x hx => hl ▸ hwb x hx, hd, hd2⟩
  | kill r c =>
    simp only [applyOpH] at hok
    cases hres : killCellH h a r c with
    | error e =>
      rw [hres] at hok
      exact absurd hok (by simp [Except.map])
    | ok hmid =>
      rw [hres] at hok
      simp only [Except.map, Except.ok.injEq, Prod.mk.injEq] at hok
      obtain ⟨rfl, rfl⟩ := hok
      obtain ⟨hv, hl⟩ := killCellH_frame h a b r c _ hd hres
      exact ⟨hv, fun x hx => hl ▸ hwa x hx, fun x hx => hl ▸ hwb x hx, hd, hd2⟩
  | addRowOp =>
    simp only [applyOpH, addRowH, Except.ok.injEq, Prod.mk.injEq] at hok
    obtain ⟨rfl, rfl⟩ := hok
    refine ⟨hview_append h b _ hwb, ?_, ?_, ?_, ?_⟩
    · intro x hx
      simp only [List.length_append, List.length_singleton]
      rcases List.mem_append.mp hx with hx | hx
      · have := hwa x hx
        omega
      · simp only [List.mem_singleton] at hx
        omega
    · intro x hx
      simp only [List.length_append, List.length_singleton]
      have := hwb x hx
      omega
    · intro x hx
      rcases List.mem_append.mp hx with hx | hx
      · exact hd x hx
      · simp only [List.mem_singleton] at hx
        subst hx
        intro hmem
        have := hwb _ hmem
        omega
    · intro x hx hmem
      rcases List.mem_append.mp hmem with hmem | hmem
      · exact hd2 x hx hmem
      · simp only [List.mem_singleton] at hmem
        have := hwb x hx
        omega
  | removeRowOp =>
    simp only [applyOpH, removeRowH] at hok
    by_cases h1 : hrows a = 1
    · rw [if_pos h1] at hok
      simp only [Except.ok.injEq, Prod.mk.injEq] at hok
      obtain ⟨rfl, rfl⟩ := hok
      exact ⟨rfl, hwa, hwb, hd, hd2⟩
    · rw [if_neg h1] at hok
      simp only [Except.ok.injEq, Prod.mk.injEq] at hok
      obtain ⟨rfl, rfl⟩ := hok
      refine ⟨rfl, ?_, hwb, ?_, ?_⟩
      · intro x hx
        exact hwa x (List.dropLast_subset _ hx)
      · intro x hx
        exact hd x (List.dropLast_subset _ hx)
      · intro x hx hmem
        exact hd2 x hx (List.dropLast_subset _ hmem)
  | addColumnOp =>
    simp only [applyOpH, addColumnH, Except.ok.injEq, Prod.mk.injEq] at hok
    obtain ⟨rfl, rfl⟩ := hok
    have hlen := foldl_hsetRow_length (fun hh id => hh.store.getD id [] ++ [false]) a.rowIds h
    refine ⟨foldl_hsetRow_frame _ a.rowIds h b (fun id hid => hd id hid), ?_, ?_, hd, hd2⟩
    · intro x hx
      rw [hlen]
      exact hwa x hx
    · intro x hx
      rw [hlen]
      exact hwb x hx
  | removeColumnOp =>
    simp only [applyOpH, removeColumnH] at hok
    by_cases h1 : hcolumns h a = 1
    · rw [if_pos h1] at hok
      simp only [Except.ok.injEq, Prod.mk.injEq] at hok
      obtain ⟨rfl, rfl⟩ := hok
      exact ⟨rfl, hwa, hwb, hd, hd2⟩
    · rw [if_neg h1] at hok
      simp only [Except.ok.injEq, Prod.mk.injEq] at hok
      obtain ⟨rfl, rfl⟩ := hok
      have hlen := foldl_hsetRow_length (fun hh id => (hh.store.getD id []).dropLast) a.rowIds h
      refine ⟨foldl_hsetRow_frame _ a.rowIds h b (fun id hid => hd id hid), ?_, ?_, hd, hd2⟩
      · intro x hx
        rw [hlen]
        exact hwa x hx
      · intro x hx
        rw [hlen]
        exact hwb x hx
  | iterateOp =>
    simp only [applyOpH, iterateH] at hok
    cases hres : applyChangesH h a (GameOfLifeModel.computeChanges (toModel h a)) with
    | error e =>
      rw [hres] at hok
      exact absurd hok (by simp)
    | ok hmid =>
      rw [hres] at hok
      simp only [Except.ok.injEq, Prod.mk.injEq] at hok
      obtain ⟨rfl, rfl⟩ := hok
      obtain ⟨hv, hl⟩ := applyChangesH_frame _ h a b _ hd hres
      exact ⟨hv, fun x hx => hl ▸ hwa x hx, fun x hx => hl ▸ hwb x hx,
        fun x hx => hd x hx, fun x hx => hd2 x hx⟩

theorem copyH_eq (h : RowHeap) (a : HModel) (hpos : ¬(hrows a = 0 ∨ hcolumns h a = 0)) :
    copyH h a = .ok
      (⟨(h.store ++ List.replicate (hrows a) (List.replicate (hcolumns h a) false)) ++
          (List.range (hrows a)).map
            (fun i => (h.store.getD (a.rowIds.getD i 0) []).map (fun e => e))⟩,
       ⟨(List.range (hrows a)).map
          (fun i => (h.store ++ List.replicate (hrows a)
              (List.replicate (hcolumns h a) false)).length + i), 0⟩) := by
  unfold copyH
  rw [if_neg hpos]

theorem copyH_view (h : RowHeap) (a : HModel) :
    hview ⟨(h.store ++ List.replicate (hrows a) (List.replicate (hcolumns h a) false)) ++
        (List.range (hrows a)).map
          (fun i => (h.store.getD (a.rowIds.getD i 0) []).map (fun e => e))⟩
      ⟨(List.range (hrows a)).map
        (fun i => (h.store ++ List.replicate (hrows a)
            (List.replicate (hcolumns h a) false)).length + i), 0⟩ = hview h a := by
  unfold hview
  rw [List.map_map]
  have step1 : ∀ i ∈ List.range (hrows a),
      ((fun id => ((h.store ++ List.replicate (hrows a)
          (List.replicate (hcolumns h a) false)) ++
          (List.range (hrows a)).map
            (fun i => (h.store.getD (a.rowIds.getD i 0) []).map (fun e => e))).getD id []) ∘
        (fun i => (h.store ++ List.replicate (hrows a)
            (List.replicate (hcolumns h a) false)).length + i)) i =
      (fun i => h.store.getD (a.rowIds.getD i 0) []) i := by
    intro i hi
    have hi' := List.mem_range.mp hi
    show ((h.store ++ List.replicate (hrows a) (List.replicate (hcolumns h a) false)) ++
        (List.range (hrows a)).map
          (fun i => (h.store.getD (a.rowIds.getD i 0) []).map (fun e => e))).getD
        ((h.store ++ List.replicate (hrows a)
            (List.replicate (hcolumns h a) false)).length + i) [] =
      h.store.getD (a.rowIds.getD i 0) []
    rw [List.getD_eq_getElem?_getD, List.getElem?_append_right (by omega)]
    have hsub : (h.store ++ List.replicate (hrows a)
        (List.replicate (hcolumns h a) false)).length + i -
        (h.store ++ List.replicate (hrows a)
          (List.replicate (hcolumns h a) false)).length = i := by
      omega
    rw [hsub, List.getElem?_map, List.getElem?_range hi']
    simp
  rw [List.map_congr_left step1]
  exact map_getD_range_comp 0 (fun id => h.store.getD id []) a.rowIds

theorem copyH_view_frame (h : RowHeap) (x : HModel) (hw : WfH h x)
    (t1 t2 : List (List Bool)) :
    hview ⟨(h.store ++ t1) ++ t2⟩ x = hview h x := by
  rw [List.append_assoc]
  exact hview_append h x (t1 ++ t2) hw

end HModel

namespace GameOfLifeModel

/-- Claim C1: `iterate` applies the Game-of-Life rule to every cell
simultaneously with respect to the pre-generation grid — it succeeds on every
rectangular grid, preserves the dimensions, and in the result a cell is alive
when its live-neighbour count (Moore neighbourhood, dead outside bounds) in
the old grid is exactly 3, dead when the count is neither 2 nor 3, and
unchanged when the count is exactly 2. -/
theorem advanceGeneration_applies_rule (m : GameOfLifeModel) (hm : Rect m) :
    ∃ m', iterate m = .ok m' ∧ rows m' = rows m ∧ columns m' = columns m ∧
      ∀ i j : Nat, i < rows m → j < columns m →
        cellAt m' i j =
          (if specLiveNeighbourCount m i j = 3 then true
           else if specLiveNeighbourCount m i j ≠ 2 then false
           else cellAt m i j) := by
  refine ⟨_, iterate_eq_ok m hm, ?_, ?_, ?_⟩
  · exact applyChangesP_rows (computeChanges m) m
  · exact applyChangesP_columns (computeChanges m) m
  · intro i j hi hj
    have hcell := cellAt_next_gen m hm i j hi hj
    rw [living_eq_spec m i j] at hcell
    exact hcell

/-- Witness for C1: the rule theorem instantiated at the 3×3 blinker. -/
theorem advanceGeneration_applies_rule_witness :
    ∃ m', iterate blinker = .ok m' ∧ rows m' = rows blinker ∧
      columns m' = columns blinker ∧
      ∀ i j : Nat, i < rows blinker → j < columns blinker →
        cellAt m' i j =
          (if specLiveNeighbourCount blinker i j = 3 then true
           else if specLiveNeighbourCount blinker i j ≠ 2 then false
           else cellAt blinker i j) :=
  advanceGeneration_applies_rule blinker (by decide)

/-- Counterexample to C2 as stated: on the 1×1 all-dead grid, `computeChanges`
records cell (0,0) with state `false` even though that cell is already dead —
the change list is not restricted to cells whose state actually changes. -/
theorem computeChanges_lists_unchanged_cell :
    computeChanges grid11 = [⟨0, 0, false⟩] ∧ cellAt grid11 0 0 = false := by
  exact ⟨by decide, by decide⟩

/-- Claim C2 (amended): the change list contains exactly the cells whose
live-neighbour count differs from 2, with recorded state true exactly for
count 3 — including cells whose recorded state equals their current state; a
cell with exactly 2 live neighbours never appears. -/
theorem computeChanges_characterization (m : GameOfLifeModel) (hm : Rect m)
    (c : CellChanges) :
    c ∈ computeChanges m ↔
      c.row < rows m ∧ c.column < columns m ∧
      (neighbours m c.row c.column).living ≠ 2 ∧
      c.state = decide ((neighbours m c.row c.column).living = 3) := by
  rw [mem_computeChanges_iff]
  constructor
  · rintro ⟨hr, hc, hsome⟩
    rw [rect_rowLen m hm c.row hr] at hc
    rw [changeAt_eq] at hsome
    by_cases hl : (neighbours m c.row c.column).living = 2
    · rw [if_pos hl] at hsome
      exact absurd hsome (by simp)
    · rw [if_neg hl] at hsome
      simp only [Option.some.injEq] at hsome
      exact ⟨hr, hc, hl, (congrArg CellChanges.state hsome).symm⟩
  · rintro ⟨hr, hc, hl, hs⟩
    refine ⟨hr, by rw [rect_rowLen m hm c.row hr]; exact hc, ?_⟩
    rw [changeAt_eq, if_neg hl, ← hs]

/-- Witness for C2 (amended) at the 1×1 grid and the change it computes. -/
theorem computeChanges_characterization_witness :
    (⟨0, 0, false⟩ : CellChanges) ∈ computeChanges grid11 ↔
      (0 : Nat) < rows grid11 ∧ (0 : Nat) < columns grid11 ∧
      (neighbours grid11 0 0).living ≠ 2 ∧
      false = decide ((neighbours grid11 0 0).living = 3) :=
  computeChanges_characterization grid11 (by decide) ⟨0, 0, false⟩

/-- Counterexample to C3 as stated: at (0, -1) on a 2×2 grid — the column is
negative, hence outside `[0, columns)` — none of the three accessors fails:
`lifeAt` returns the falsy `undefined` read (no throw), and the setters
return without error and without changing any grid cell. -/
theorem negative_column_access_does_not_fail :
    lifeAt grid22 0 (-1) = .ok false ∧
    reviveCell grid22 0 (-1) = .ok grid22 ∧
    killCell grid22 0 (-1) = .ok grid22 := ⟨rfl, rfl, rfl⟩

/-- Claim C3 (amended): `lifeAt`, `reviveCell` and `killCell` fail with
`OutOfRange` when the row is at least `rows` or the column at least
`columns`; a negative row (with in-range column) fails with a `TypeError`,
not `OutOfRange`; a negative column with an in-range row does not fail at
all — the read yields dead and the setters leave the grid untouched; and on
in-range indices all three succeed, the read has no side effect, and the
setters mutate exactly the addressed cell. -/
theorem index_validation_behaviour (m : GameOfLifeModel) (hm : Rect m)
    (row column : Int) :
    (((rows m : Int) ≤ row ∨ (columns m : Int) ≤ column) →
       lifeAt m row column = .error .outOfRange ∧
       reviveCell m row column = .error .outOfRange ∧
       killCell m row column = .error .outOfRange) ∧
    (row < 0 → column < (columns m : Int) →
       lifeAt m row column = .error .typeError ∧
       reviveCell m row column = .error .typeError ∧
       killCell m row column = .error .typeError) ∧
    (0 ≤ row → row < (rows m : Int) → column < 0 →
       lifeAt m row column = .ok false ∧
       reviveCell m row column = .ok m ∧
       killCell m row column = .ok m) ∧
    (0 ≤ row → row < (rows m : Int) → 0 ≤ column → column < (columns m : Int) →
       lifeAt m row column = .ok (cellAt m row.toNat column.toNat) ∧
       reviveCell m row column = .ok (setCell m row.toNat column.toNat true) ∧
       killCell m row column = .ok (setCell m row.toNat column.toNat false) ∧
       ∀ b : Bool,
         rows (setCell m row.toNat column.toNat b) = rows m ∧
         columns (setCell m row.toNat column.toNat b) = columns m ∧
         (setCell m row.toNat column.toNat b).iteration = m.iteration ∧
         cellAt (setCell m row.toNat column.toNat b) row.toNat column.toNat = b ∧
         ∀ i j : Nat, ¬(i = row.toNat ∧ j = column.toNat) →
           cellAt (setCell m row.toNat column.toNat b) i j = cellAt m i j) := by
  refine ⟨?_, ?_, ?_, ?_⟩
  · intro hcase
    by_cases hrow : (rows m : Int) ≤ row
    · refine ⟨?_, ?_, ?_⟩
      · rw [lifeAt_eq, if_pos hrow]
      · rw [reviveCell_eq, if_pos hrow]
      · rw [killCell_eq, if_pos hrow]
    · have hcol : (columns m : Int) ≤ column := by tauto
      refine ⟨?_, ?_, ?_⟩
      · rw [lifeAt_eq, if_neg hrow, if_pos hcol]
      · rw [reviveCell_eq, if_neg hrow, if_pos hcol]
      · rw [killCell_eq, if_neg hrow, if_pos hcol]
  · intro hneg hcol
    have hrow : ¬(rows m : Int) ≤ row := by omega
    have hcol' : ¬(columns m : Int) ≤ column := by omega
    refine ⟨?_, ?_, ?_⟩
    · rw [lifeAt_eq, if_neg hrow, if_neg hcol', if_pos hneg]
    · rw [reviveCell_eq, if_neg hrow, if_neg hcol', if_pos hneg]
    · rw [killCell_eq, if_neg hrow, if_neg hcol', if_pos hneg]
  · intro h0 hlt hneg
    have hrow : ¬(rows m : Int) ≤ row := by omega
    have hcol' : ¬(columns m : Int) ≤ column := by omega
    have hnn : ¬row < 0 := by omega
    refine ⟨?_, ?_, ?_⟩
    · rw [lifeAt_eq, if_neg hrow, if_neg hcol', if_neg hnn, if_pos hneg]
    · rw [reviveCell_eq, if_neg hrow, if_neg hcol', if_neg hnn, if_pos hneg]
    · rw [killCell_eq, if_neg hrow, if_neg hcol', if_neg hnn, if_pos hneg]
  · intro h0 hlt hc0 hclt
    have hrow : ¬(rows m : Int) ≤ row := by omega
    have hcol' : ¬(columns m : Int) ≤ column := by omega
    have hnn : ¬row < 0 := by omega
    have hcn : ¬column < 0 := by omega
    refine ⟨?_, ?_, ?_, ?_⟩
    · rw [lifeAt_eq, if_neg hrow, if_neg hcol', if_neg hnn, if_neg hcn]
    · rw [reviveCell_eq, if_neg hrow, if_neg hcol', if_neg hnn, if_neg hcn]
    · rw [killCell_eq, if_neg hrow, if_neg hcol', if_neg hnn, if_neg hcn]
    · intro b
      have hi : row.toNat < rows m := by omega
      have hj : column.toNat < (m.cells.getD row.toNat []).length := by
        rw [rect_rowLen m hm row.toNat hi]
        omega
      exact ⟨rows_setCell m _ _ b, columns_setCell m _ _ b, rfl,
        cellAt_setCell_same m _ _ b hi hj,
        fun i j hij => cellAt_setCell_ne m _ _ i j b hij⟩

/-- Witness for C3 (amended) at the 2×2 grid and index (0, 1). -/
theorem index_validation_behaviour_witness :
    (((rows grid22 : Int) ≤ 0 ∨ (columns grid22 : Int) ≤ 1) →
       lifeAt grid22 0 1 = .error .outOfRange ∧
       reviveCell grid22 0 1 = .error .outOfRange ∧
       killCell grid22 0 1 = .error .outOfRange) ∧
    ((0 : Int) < 0 → (1 : Int) < (columns grid22 : Int) →
       lifeAt grid22 0 1 = .error .typeError ∧
       reviveCell grid22 0 1 = .error .typeError ∧
       killCell grid22 0 1 = .error .typeError) ∧
    ((0 : Int) ≤ 0 → (0 : Int) < (rows grid22 : Int) → (1 : Int) < 0 →
       lifeAt grid22 0 1 = .ok false ∧
       reviveCell grid22 0 1 = .ok grid22 ∧
       killCell grid22 0 1 = .ok grid22) ∧
    ((0 : Int) ≤ 0 → (0 : Int) < (rows grid22 : Int) → (0 : Int) ≤ 1 →
        (1 : Int) < (columns grid22 : Int) →
       lifeAt grid22 0 1 = .ok (cellAt grid22 (0 : Int).toNat (1 : Int).toNat) ∧
       reviveCell grid22 0 1 = .ok (setCell grid22 (0 : Int).toNat (1 : Int).toNat true) ∧
       killCell grid22 0 1 = .ok (setCell grid22 (0 : Int).toNat (1 : Int).toNat false) ∧
       ∀ b : Bool,
         rows (setCell grid22 (0 : Int).toNat (1 : Int).toNat b) = rows grid22 ∧
         columns (setCell grid22 (0 : Int).toNat (1 : Int).toNat b) = columns grid22 ∧
         (setCell grid22 (0 : Int).toNat (1 : Int).toNat b).iteration = grid22.iteration ∧
         cellAt (setCell grid22 (0 : Int).toNat (1 : Int).toNat b)
           (0 : Int).toNat (1 : Int).toNat = b ∧
         ∀ i j : Nat, ¬(i = (0 : Int).toNat ∧ j = (1 : Int).toNat) →
           cellAt (setCell grid22 (0 : Int).toNat (1 : Int).toNat b) i j =
             cellAt grid22 i j) :=
  index_validation_behaviour grid22 (by decide) 0 1

/-- Counterexample to C4 as stated (its negation): there is no valid grid on
which the copy-based `main.ts` iterate and the two-phase iterate differ —
the `main.ts` variant reads every neighbour count from the unmodified
original and writes to a deep copy, so no partially-overwritten grid is ever
consulted. -/
theorem no_valid_grid_separates_iterates :
    ¬∃ m : GameOfLifeModel, (Rect m ∧ 1 ≤ rows m ∧ 1 ≤ columns m) ∧
      iterateMainTs m ≠ iterate m := by
  rintro ⟨m, ⟨hm, h1, h2⟩, hne⟩
  exact hne (iterate_variants_agree m hm h1 h2)

/-- Claim C4 (amended): on every valid grid the copy-based `iterate` of
`main.ts` and the two-phase `computeChanges`/`applyChanges` `iterate` are
extensionally equal, returning identical models. -/
theorem iterateMainTs_eq_iterate (m : GameOfLifeModel) (hm : Rect m)
    (h1 : 1 ≤ rows m) (h2 : 1 ≤ columns m) :
    iterateMainTs m = iterate m :=
  iterate_variants_agree m hm h1 h2

/-- Witness for C4 (amended) at the blinker. -/
theorem iterateMainTs_eq_iterate_witness :
    iterateMainTs blinker = iterate blinker :=
  iterateMainTs_eq_iterate blinker (by decide) (by decide) (by decide)

/-- Claim C5: `neighbours` is total (the try/catch makes every failed lookup
count as dead), its live count equals the spec's dead-outside-bounds Moore
count at every index and never exceeds 8; on a 3×3 grid the corner (0,0)
counts exactly its three in-grid neighbours, hence at most 3. -/
theorem neighbour_edge_policy :
    (∀ (m : GameOfLifeModel) (row column : Int),
       (neighbours m row column).living = specLiveNeighbourCount m row column ∧
       (neighbours m row column).living ≤ 8) ∧
    (∀ m : GameOfLifeModel, rows m = 3 → columns m = 3 →
       (neighbours m 0 0).living =
         (cellAt m 0 1).toNat + (cellAt m 1 1).toNat + (cellAt m 1 0).toNat ∧
       (neighbours m 0 0).living ≤ 3) := by
  constructor
  · intro m row column
    exact ⟨living_eq_spec m row column, living_le_eight _⟩
  · intro m h3r h3c
    have hval : (neighbours m 0 0).living =
        (cellAt m 0 1).toNat + (cellAt m 1 1).toNat + (cellAt m 1 0).toNat := by
      rw [living_eq_spec]
      unfold specLiveNeighbourCount
      rw [inGridAlive_out m (0 - 1) 0 (fun hcon => absurd hcon.1 (by decide)),
        inGridAlive_out m (0 - 1) (0 + 1) (fun hcon => absurd hcon.1 (by decide)),
        inGridAlive_out m (0 + 1) (0 - 1) (fun hcon => absurd hcon.2.2.1 (by decide)),
        inGridAlive_out m 0 (0 - 1) (fun hcon => absurd hcon.2.2.1 (by decide)),
        inGridAlive_out m (0 - 1) (0 - 1) (fun hcon => absurd hcon.1 (by decide)),
        inGridAlive_in m 0 (0 + 1) (by decide) (by omega) (by decide) (by omega),
        inGridAlive_in m (0 + 1) (0 + 1) (by decide) (by omega) (by decide) (by omega),
        inGridAlive_in m (0 + 1) 0 (by decide) (by omega) (by decide) (by omega)]
      norm_num
    refine ⟨hval, ?_⟩
    rw [hval]
    have b1 := Bool.toNat_le (cellAt m 0 1)
    have b2 := Bool.toNat_le (cellAt m 1 1)
    have b3 := Bool.toNat_le (cellAt m 1 0)
    omega

/-- Witness for C5: the corner statement instantiated at the 3×3 blinker. -/
theorem neighbour_edge_policy_witness :
    (neighbours blinker 0 0).living =
      (cellAt blinker 0 1).toNat + (cellAt blinker 1 1).toNat +
        (cellAt blinker 1 0).toNat ∧
    (neighbours blinker 0 0).living ≤ 3 :=
  neighbour_edge_policy.2 blinker rfl rfl

/-- Claim C6: `construct` fails with `InvalidSize` exactly when a dimension
is 0 (for any integer arguments), and on positive dimensions succeeds with a
rows × columns all-dead grid whose generation counter is 0. -/
theorem construct_size_validation :
    ∀ r c : Int,
      (construct r c = .error .invalidSize ↔ r = 0 ∨ c = 0) ∧
      (1 ≤ r → 1 ≤ c →
        ∃ m, construct r c = .ok m ∧ rows m = r.toNat ∧ columns m = c.toNat ∧
          m.iteration = 0 ∧ ∀ i j : Nat, cellAt m i j = false) := by
  intro r c
  constructor
  · constructor
    · intro h
      by_contra hne
      push_neg at hne
      unfold construct at h
      rw [if_neg (by tauto)] at h
      split_ifs at h
      all_goals simp at h
    · rintro (rfl | rfl)
      · unfold construct
        rw [if_pos (Or.inl rfl)]
      · unfold construct
        rw [if_pos (Or.inr rfl)]
  · intro h1 h2
    refine ⟨⟨List.replicate r.toNat (List.replicate c.toNat false), 0⟩, ?_, ?_, ?_, rfl, ?_⟩
    · unfold construct
      rw [if_neg (by omega), if_neg (by omega)]
    · show (List.replicate r.toNat (List.replicate c.toNat false)).length = r.toNat
      simp
    · show ((List.replicate r.toNat (List.replicate c.toNat false)).getD 0 []).length
        = c.toNat
      rw [List.getD_eq_getElem?_getD, List.getElem?_replicate, if_pos (by omega)]
      simp
    · intro i j
      exact cellAt_replicate_false r.toNat c.toNat i j

/-- Witness for C6 at 2×3. -/
theorem construct_size_validation_witness :
    ∃ m, construct 2 3 = .ok m ∧ rows m = (2 : Int).toNat ∧
      columns m = (3 : Int).toNat ∧ m.iteration = 0 ∧
      ∀ i j : Nat, cellAt m i j = false :=
  (construct_size_validation 2 3).2 (by decide) (by decide)

/-- Claim C7: the generation counter starts at 0 after construction, each
successful `iterate` increments it by exactly 1, and every other operation —
`randomize` included — leaves it unchanged (hence it is never
decremented). -/
theorem generation_counter_behaviour :
    (∀ (r c : Int) (m : GameOfLifeModel), construct r c = .ok m → m.iteration = 0) ∧
    (∀ m m' : GameOfLifeModel, iterate m = .ok m' → m'.iteration = m.iteration + 1) ∧
    (∀ (m : GameOfLifeModel) (coin : Nat → Nat → Bool),
      (randomize m coin).iteration = m.iteration) ∧
    (∀ (m m' : GameOfLifeModel) (r c : Int),
      reviveCell m r c = .ok m' → m'.iteration = m.iteration) ∧
    (∀ (m m' : GameOfLifeModel) (r c : Int),
      killCell m r c = .ok m' → m'.iteration = m.iteration) ∧
    (∀ m : GameOfLifeModel, (addRow m).iteration = m.iteration) ∧
    (∀ m : GameOfLifeModel, (removeRow m).iteration = m.iteration) ∧
    (∀ m : GameOfLifeModel, (addColumn m).iteration = m.iteration) ∧
    (∀ m : GameOfLifeModel, (removeColumn m).iteration = m.iteration) := by
  refine ⟨?_, ?_, ?_, ?_, ?_, ?_, ?_, ?_, ?_⟩
  · intro r c m h
    exact construct_ok_iteration h
  · intro m m' h
    exact iterate_ok_iteration h
  · intro m coin
    rfl
  · intro m m' r c h
    exact (reviveCell_ok_shape h).2.2
  · intro m m' r c h
    exact (killCell_ok_shape h).2.2
  · intro m
    rfl
  · intro m
    unfold removeRow
    split_ifs
    · rfl
    · rfl
  · intro m
    rfl
  · intro m
    unfold removeColumn
    split_ifs
    · rfl
    · rfl

/-- Witness for C7: one concrete generation advance increments the counter
from 0 to 1. -/
theorem generation_counter_behaviour_witness :
    ∃ m', iterate blinker = .ok m' ∧ m'.iteration = blinker.iteration + 1 := by
  refine ⟨⟨[[false, true, false], [false, true, false], [false, true, false]], 1⟩, rfl, ?_⟩
  exact generation_counter_behaviour.2.1 blinker _ rfl

/-- Claim C9: `addRow` and `addColumn` grow the grid by one all-dead trailing
row or column and leave every existing cell unchanged; `removeRow` and
`removeColumn` are no-ops when the respective dimension is 1 and otherwise
remove exactly the trailing row or column; no dimension ever reaches 0. -/
theorem resize_behaviour (m : GameOfLifeModel) (hm : Rect m)
    (h1 : 1 ≤ rows m) (h2 : 1 ≤ columns m) :
    (rows (addRow m) = rows m + 1 ∧ columns (addRow m) = columns m ∧
      (∀ i j : Nat, i < rows m → cellAt (addRow m) i j = cellAt m i j) ∧
      (∀ j : Nat, cellAt (addRow m) (rows m) j = false)) ∧
    (rows (addColumn m) = rows m ∧ columns (addColumn m) = columns m + 1 ∧
      (∀ i j : Nat, i < rows m → j < columns m →
        cellAt (addColumn m) i j = cellAt m i j) ∧
      (∀ i : Nat, i < rows m → cellAt (addColumn m) i (columns m) = false)) ∧
    ((rows m = 1 → removeRow m = m) ∧
      (2 ≤ rows m → rows (removeRow m) = rows m - 1 ∧
        columns (removeRow m) = columns m ∧
        (∀ i j : Nat, i < rows m - 1 → cellAt (removeRow m) i j = cellAt m i j)) ∧
      1 ≤ rows (removeRow m)) ∧
    ((columns m = 1 → removeColumn m = m) ∧
      (2 ≤ columns m → columns (removeColumn m) = columns m - 1 ∧
        rows (removeColumn m) = rows m ∧
        (∀ i j : Nat, i < rows m → j < columns m - 1 →
          cellAt (removeColumn m) i j = cellAt m i j)) ∧
      1 ≤ columns (removeColumn m)) := by
  refine ⟨⟨rows_addRow m, columns_addRow m h1, ?_, ?_⟩,
    ⟨rows_addColumn m, columns_addColumn m h1, ?_, ?_⟩, ⟨?_, ?_, ?_⟩, ⟨?_, ?_, ?_⟩⟩
  · intro i j hi
    exact cellAt_addRow_old m i j hi
  · intro j
    exact cellAt_addRow_new m j
  · intro i j hi hj
    exact cellAt_addColumn_old m i j (by rw [rect_rowLen m hm i hi]; exact hj)
  · intro i hi
    exact cellAt_addColumn_new m hm i hi
  · exact removeRow_eq_self m
  · intro hge
    exact ⟨rows_removeRow m hge, columns_removeRow m hge,
      fun i j hi => cellAt_removeRow m i j hge hi⟩
  · by_cases hone : rows m = 1
    · rw [removeRow_eq_self m hone]
      omega
    · rw [rows_removeRow m (by omega)]
      omega
  · exact removeColumn_eq_self m
  · intro hge
    exact ⟨columns_removeColumn m h1 hge, rows_removeColumn m,
      fun i j hi hj => cellAt_removeColumn m hm i j hi hge hj⟩
  · by_cases hone : columns m = 1
    · rw [removeColumn_eq_self m hone]
      omega
    · rw [columns_removeColumn m h1 (by omega)]
      omega

/-- Witness for C9: two of its conclusions at the blinker. -/
theorem resize_behaviour_witness :
    rows (addRow blinker) = rows blinker + 1 ∧
    1 ≤ rows (removeRow blinker) := by
  obtain ⟨hA, hB, hC, hD⟩ := resize_behaviour blinker (by decide) (by decide) (by decide)
  exact ⟨hA.1, hC.2.2⟩

/-- Claim C10: `copy` resets the generation counter of the copy to 0 no
matter what the source counter is, while duplicating the cells. -/
theorem snapshotCopy_iteration_reset (m : GameOfLifeModel)
    (h1 : 1 ≤ rows m) (h2 : 1 ≤ columns m) :
    ∃ m', copy m = .ok m' ∧ m'.iteration = 0 ∧ m'.cells = m.cells :=
  ⟨_, copy_ok m h1 h2, rfl, rfl⟩

/-- Witness for C10 at a 1×1 grid whose counter is 7. -/
theorem snapshotCopy_iteration_reset_witness :
    ∃ m', copy grid17 = .ok m' ∧ m'.iteration = 0 ∧ m'.cells = grid17.cells :=
  snapshotCopy_iteration_reset grid17 (by decide) (by decide)

end GameOfLifeModel

namespace HModel

/-- Claim C8: `copy` produces a grid with the same dimensions and cell
contents that shares no row-array storage with the source — its fresh array
ids are disjoint from the source's and from every other well-formed model's —
and every mutating operation (cell setters, resizes, generation advance)
applied to one model leaves any disjoint model's observed cells unchanged,
preserving well-formedness and disjointness for the operations that follow. -/
theorem snapshotCopy_no_sharing :
    (∀ (h : RowHeap) (a : HModel), WfH h a → 1 ≤ hrows a → 1 ≤ hcolumns h a →
      ∃ (h2 : RowHeap) (c : HModel), copyH h a = .ok (h2, c) ∧
        hview h2 c = hview h a ∧
        hview h2 a = hview h a ∧
        c.iteration = 0 ∧
        WfH h2 a ∧ WfH h2 c ∧ IdsDisjoint a c ∧ IdsDisjoint c a ∧
        (∀ b : HModel, WfH h b → hview h2 b = hview h b)) ∧
    (∀ (h : RowHeap) (a b : HModel) (op : MOp) (h' : RowHeap) (a' : HModel),
      WfH h a → WfH h b → IdsDisjoint a b → IdsDisjoint b a →
      applyOpH h a op = .ok (h', a') →
      hview h' b = hview h b ∧ WfH h' a' ∧ WfH h' b ∧
        IdsDisjoint a' b ∧ IdsDisjoint b a') := by
  constructor
  · intro h a hwa h1 h2
    refine ⟨_, _, copyH_eq h a (by omega), copyH_view h a,
      copyH_view_frame h a hwa _ _, rfl, ?_, ?_, ?_, ?_, ?_⟩
    · intro x hx
      have := hwa x hx
      simp only [List.length_append]
      omega
    · intro x hx
      obtain ⟨i, hi, rfl⟩ := List.mem_map.mp hx
      have hi' := List.mem_range.mp hi
      simp only [List.length_append, List.length_map, List.length_range]
      omega
    · intro x hx hmem
      obtain ⟨i, hi, hEq⟩ := List.mem_map.mp hmem
      have hxlt := hwa x hx
      simp only [List.length_append, List.length_replicate] at hEq
      omega
    · intro x hx hmem
      obtain ⟨i, hi, hEq⟩ := List.mem_map.mp hx
      have hxlt := hwa x hmem
      simp only [List.length_append, List.length_replicate] at hEq
      omega
    · intro b hwb
      exact copyH_view_frame h b hwb _ _
  · intro h a b op h' a' hwa hwb hd hd2 hok
    exact applyOpH_frame h a b op h' a' hwa hwb hd hd2 hok

/-- Witness for C8: the copy statement on a one-row heap, and the frame
statement for an `addRow` on that heap next to an unrelated empty model. -/
theorem snapshotCopy_no_sharing_witness :
    (∃ (h2 : RowHeap) (c : HModel), copyH ⟨[[false]]⟩ ⟨[0], 0⟩ = .ok (h2, c) ∧
      hview h2 c = hview ⟨[[false]]⟩ ⟨[0], 0⟩ ∧
      hview h2 ⟨[0], 0⟩ = hview ⟨[[false]]⟩ ⟨[0], 0⟩ ∧
      c.iteration = 0 ∧
      WfH h2 ⟨[0], 0⟩ ∧ WfH h2 c ∧ IdsDisjoint ⟨[0], 0⟩ c ∧ IdsDisjoint c ⟨[0], 0⟩ ∧
      (∀ b : HModel, WfH ⟨[[false]]⟩ b → hview h2 b = hview ⟨[[false]]⟩ b)) ∧
    (hview ⟨[[false], [false]]⟩ ⟨[], 0⟩ = hview ⟨[[false]]⟩ ⟨[], 0⟩ ∧
      WfH ⟨[[false], [false]]⟩ ⟨[0, 1], 0⟩ ∧ WfH ⟨[[false], [false]]⟩ ⟨[], 0⟩ ∧
      IdsDisjoint ⟨[0, 1], 0⟩ ⟨[], 0⟩ ∧ IdsDisjoint ⟨[], 0⟩ ⟨[0, 1], 0⟩) :=
  ⟨snapshotCopy_no_sharing.1 ⟨[[false]]⟩ ⟨[0], 0⟩ (by decide) (by decide) (by decide),
   snapshotCopy_no_sharing.2 ⟨[[false]]⟩ ⟨[0], 0⟩ ⟨[], 0⟩ .addRowOp
     ⟨[[false], [false]]⟩ ⟨[0, 1], 0⟩ (by decide) (by decide) (by decide) (by decide) rfl⟩

end HModel

end GameOfLife